import Mathlib

/-!
Verification development for the aglogen_core aggregation engine
(juanjoseexpositogonzalez/pyaglogen3D).  The Rust sources under
src/aglogen_core are shallowly embedded: f64 values are modelled as real
numbers, slices as lists, and the seeded random generator as an explicit
stream of draws threaded through every stochastic decision, exactly as the
Rust code threads its Pcg64 value.
-/

namespace Aglogen

/-- 3D vector with basic operations (src/common/geometry.rs, `Vector3`). -/
structure Vector3 where
  x : ℝ
  y : ℝ
  z : ℝ

def Vector3.zero : Vector3 := ⟨0, 0, 0⟩

def Vector3.add (a b : Vector3) : Vector3 := ⟨a.x + b.x, a.y + b.y, a.z + b.z⟩

def Vector3.sub (a b : Vector3) : Vector3 := ⟨a.x - b.x, a.y - b.y, a.z - b.z⟩

def Vector3.smul (a : Vector3) (s : ℝ) : Vector3 := ⟨a.x * s, a.y * s, a.z * s⟩

def Vector3.dot (a b : Vector3) : ℝ := a.x * b.x + a.y * b.y + a.z * b.z

def Vector3.lengthSquared (a : Vector3) : ℝ := a.x * a.x + a.y * a.y + a.z * a.z

noncomputable def Vector3.length (a : Vector3) : ℝ := Real.sqrt a.lengthSquared

noncomputable def Vector3.normalize (a : Vector3) : Vector3 :=
  if 0 < a.length then ⟨a.x / a.length, a.y / a.length, a.z / a.length⟩ else Vector3.zero

noncomputable def Vector3.distance_to (a b : Vector3) : ℝ := (a.sub b).length

/-- Cross product, as inlined in tunable.rs `rotate_vector` and used by
ballistic_cc.rs `create_orthogonal_basis`. -/
def Vector3.cross (a b : Vector3) : Vector3 :=
  ⟨a.y * b.z - a.z * b.y, a.z * b.x - a.x * b.z, a.x * b.y - a.y * b.x⟩

/-- Sphere representation (src/common/geometry.rs, `Sphere`). -/
structure Sphere where
  center : Vector3
  radius : ℝ

/-- Mass of a particle, proportional to volume (`r * r * r` in the source). -/
def massOf (r : ℝ) : ℝ := r * r * r

/-- Mass-weighted center of gravity
(src/simulation/metrics.rs, `calculate_center_of_gravity`). -/
noncomputable def calculate_center_of_gravity
    (coordinates : List Vector3) (radii : List ℝ) : Vector3 :=
  let pairs := coordinates.zip radii
  let total_mass := (pairs.map fun p => massOf p.2).sum
  let cg : Vector3 :=
    ⟨(pairs.map fun p => p.1.x * massOf p.2).sum,
     (pairs.map fun p => p.1.y * massOf p.2).sum,
     (pairs.map fun p => p.1.z * massOf p.2).sum⟩
  if 0 < total_mass then cg.smul (1 / total_mass) else Vector3.zero

/-- Radius of gyration, Rg = sqrt(Ip / mp)
(src/simulation/metrics.rs, `calculate_radius_of_gyration`). -/
noncomputable def calculate_radius_of_gyration
    (coordinates : List Vector3) (radii : List ℝ) : ℝ :=
  if coordinates.isEmpty then 0 else
  let cg := calculate_center_of_gravity coordinates radii
  let pairs := coordinates.zip radii
  let ip := (pairs.map fun p =>
    (3 / 5) * (massOf p.2 * p.2 * p.2) +
      massOf p.2 * (p.1.distance_to cg) * (p.1.distance_to cg)).sum
  let mp := (pairs.map fun p => massOf p.2).sum
  if 0 < mp then Real.sqrt (ip / mp) else 0

/-- Valid data points of the Rg-vs-N fit: the `filter`/`map` chain of
`calculate_fractal_dimension` keeps pairs with N > 1 and Rg > 0 and takes
logs of both components. -/
noncomputable def fdValidData : List (ℕ × ℝ) → List (ℝ × ℝ)
  | [] => []
  | (n, rg) :: rest =>
    if 1 < n ∧ 0 < rg then (Real.log n, Real.log rg) :: fdValidData rest
    else fdValidData rest

/-- Fractal dimension fit by log-log regression of Rg on N
(src/simulation/metrics.rs, `calculate_fractal_dimension`).
Returns (Df, kf, R2). -/
noncomputable def calculate_fractal_dimension
    (n_values : List ℕ) (rg_values : List ℝ) : ℝ × ℝ × ℝ :=
  if n_values.length < 3 ∨ n_values.length ≠ rg_values.length then (2, 1, 0)
  else
    let data := fdValidData (n_values.zip rg_values)
    if data.length < 3 then (2, 1, 0)
    else
      let n : ℝ := data.length
      let sum_x := (data.map fun p => p.1).sum
      let sum_y := (data.map fun p => p.2).sum
      let sum_xx := (data.map fun p => p.1 * p.1).sum
      let sum_xy := (data.map fun p => p.1 * p.2).sum
      let slope := (n * sum_xy - sum_x * sum_y) / (n * sum_xx - sum_x * sum_x)
      let intercept := (sum_y - slope * sum_x) / n
      let df := if 0.01 < |slope| then 1 / slope else 2
      let kf := Real.exp (intercept * df)
      let mean_y := sum_y / n
      let ss_tot : ℝ := (data.map fun p => (p.2 - mean_y) ^ 2).sum
      let ss_res : ℝ := (data.map fun p => (p.2 - (intercept + slope * p.1)) ^ 2).sum
      let r2 := if 0 < ss_tot then 1 - ss_res / ss_tot else 0
      (min (max df 1) 3, max kf 0.1, r2)

/-- Valid data points of the Tunable-family fit: pairs with N > 1 and
Rg > rp * 0.1, mapped to (ln(Rg/rp), ln N)
(tunable.rs / tunable_cc.rs, `calculate_fractal_dimension_from_evolution`). -/
noncomputable def evoValidData (rp : ℝ) : List (ℕ × ℝ) → List (ℝ × ℝ)
  | [] => []
  | (n, rg) :: rest =>
    if 1 < n ∧ rp * 0.1 < rg then
      (Real.log (rg / rp), Real.log n) :: evoValidData rp rest
    else evoValidData rp rest

/-- Tunable-family fractal dimension fit: regression of ln N on ln(Rg/rp)
(identical bodies in src/simulation/tunable.rs and
src/simulation/tunable_cc.rs, `calculate_fractal_dimension_from_evolution`).
Returns (Df, kf, R2). -/
noncomputable def calculate_fractal_dimension_from_evolution
    (n_values : List ℕ) (rg_values : List ℝ) (rp : ℝ) : ℝ × ℝ × ℝ :=
  if n_values.length < 3 ∨ n_values.length ≠ rg_values.length then (2, 1, 0)
  else
    let data := evoValidData rp (n_values.zip rg_values)
    if data.length < 3 then (2, 1, 0)
    else
      let n : ℝ := data.length
      let sum_x := (data.map fun p => p.1).sum
      let sum_y := (data.map fun p => p.2).sum
      let sum_xx := (data.map fun p => p.1 * p.1).sum
      let sum_xy := (data.map fun p => p.1 * p.2).sum
      let denom := n * sum_xx - sum_x * sum_x
      if |denom| < 1e-10 then (2, 1, 0)
      else
        let slope := (n * sum_xy - sum_x * sum_y) / denom
        let intercept := (sum_y - slope * sum_x) / n
        let df := min (max slope 1) 3
        let kf := min (max (Real.exp intercept) 0.1) 10
        let mean_y := sum_y / n
        let ss_tot : ℝ := (data.map fun p => (p.2 - mean_y) ^ 2).sum
        let ss_res : ℝ := (data.map fun p => (p.2 - (intercept + slope * p.1)) ^ 2).sum
        let r2 := if 0 < ss_tot then 1 - ss_res / ss_tot else 0
        (df, kf, r2)



/-- CCA simulation parameters (src/simulation/cca.rs, `CcaParams`). -/
structure CcaParams where
  n_particles : ℕ
  sticking_probability : ℝ
  radius_min : ℝ
  radius_max : ℝ
  box_size : ℝ
  max_iterations : ℕ
  step_size_factor : ℝ
  single_agglomerate : Bool

noncomputable def CcaParams.mean_radius (p : CcaParams) : ℝ :=
  (p.radius_min + p.radius_max) / 2

/-- Optimal box size from particle count and target volume fraction
(cca.rs, `CcaParams::optimal_box_size`); `f64::cbrt` is modelled as the real
1/3 power (the argument is nonnegative in every use). -/
noncomputable def optimal_box_size (n_particles : ℕ)
    (mean_radius target_volume_fraction : ℝ) : ℝ :=
  let particle_volume := (4 / 3) * Real.pi * mean_radius ^ 3
  let total_particle_volume := (n_particles : ℝ) * particle_volume
  let box_volume := total_particle_volume / target_volume_fraction
  box_volume ^ ((1:ℝ) / 3)

/-- Effective box size used by `run_cca_internal` (cca.rs lines 195-203):
in single-agglomerate mode the minimum of the user box size and the optimal
box size at 3% target volume fraction, otherwise the user box size. -/
noncomputable def ccaEffectiveBoxSize (p : CcaParams) : ℝ :=
  let optimal_box := optimal_box_size p.n_particles p.mean_radius 0.03
  if p.single_agglomerate then min p.box_size optimal_box else p.box_size

/-- Concrete CCA parameter record used by witnesses. -/
noncomputable def c8Params : CcaParams :=
  { n_particles := 10, sticking_probability := 1, radius_min := 1, radius_max := 1,
    box_size := 100, max_iterations := 100000, step_size_factor := 2,
    single_agglomerate := true }

/-- Result of the eigendecomposition used by `calculate_inertia_tensor`
(nalgebra `SymmetricEigen`, an external crate): eigenvalues and eigenvectors
of the 3x3 symmetric inertia matrix, in unspecified order.  The decomposition
itself is kept abstract as a parameter. -/
structure EigResult where
  vals : Fin 3 → ℝ
  vecs : Fin 3 → Fin 3 → ℝ

/-- The symmetric 3x3 inertia matrix, by its six independent entries. -/
structure InertiaMatrix where
  ixx : ℝ
  iyy : ℝ
  izz : ℝ
  ixy : ℝ
  ixz : ℝ
  iyz : ℝ

/-- Results from inertia tensor analysis
(src/simulation/metrics.rs, `InertiaTensorResult`). -/
structure InertiaTensorResult where
  principal_moments : ℝ × ℝ × ℝ
  principal_axes : Fin 3 → Fin 3 → ℝ
  anisotropy : ℝ
  asphericity : ℝ
  acylindricity : ℝ

/-- Default result for empty or single-particle cases
(metrics.rs lines 188-194). -/
noncomputable def defaultInertiaResult : InertiaTensorResult :=
  { principal_moments := (1, 1, 1),
    principal_axes := fun i j => if i = j then 1 else 0,
    anisotropy := 1, asphericity := 0, acylindricity := 0 }

/-- Sorting of the three eigenvalue indices in ascending eigenvalue order,
mirroring `indices.sort_by(partial_cmp)` on the index list [0, 1, 2]. -/
noncomputable def sortedIdx (v : Fin 3 → ℝ) : Fin 3 × Fin 3 × Fin 3 :=
  if v 0 ≤ v 1 then
    if v 1 ≤ v 2 then (0, 1, 2)
    else if v 0 ≤ v 2 then (0, 2, 1)
    else (2, 0, 1)
  else
    if v 0 ≤ v 2 then (1, 0, 2)
    else if v 1 ≤ v 2 then (1, 2, 0)
    else (2, 1, 0)

/-- Inertia tensor with principal components
(src/simulation/metrics.rs, `calculate_inertia_tensor`), parametrized by the
external eigendecomposition routine `eig`. -/
noncomputable def calculate_inertia_tensor (eig : InertiaMatrix → EigResult)
    (coordinates : List Vector3) (radii : List ℝ) : InertiaTensorResult :=
  if coordinates.length < 2 then defaultInertiaResult
  else
    let cg := calculate_center_of_gravity coordinates radii
    let pairs := coordinates.zip radii
    let terms := pairs.map fun p =>
      let x := p.1.x - cg.x
      let y := p.1.y - cg.y
      let z := p.1.z - cg.z
      let mass := massOf p.2
      let r_sq := x * x + y * y + z * z
      (mass * (r_sq - x * x), mass * (r_sq - y * y), mass * (r_sq - z * z),
       -(mass * x * y), -(mass * x * z), -(mass * y * z))
    let m : InertiaMatrix :=
      { ixx := (terms.map fun t => t.1).sum, iyy := (terms.map fun t => t.2.1).sum,
        izz := (terms.map fun t => t.2.2.1).sum, ixy := (terms.map fun t => t.2.2.2.1).sum,
        ixz := (terms.map fun t => t.2.2.2.2.1).sum, iyz := (terms.map fun t => t.2.2.2.2.2).sum }
    let e := eig m
    let s := sortedIdx e.vals
    let i1 := max (e.vals s.1) 1e-10
    let i2 := max (e.vals s.2.1) 1e-10
    let i3 := max (e.vals s.2.2) 1e-10
    let axes : Fin 3 → Fin 3 → ℝ := fun k j =>
      e.vecs j (if k = 0 then s.1 else if k = 1 then s.2.1 else s.2.2)
    let trace := i1 + i2 + i3
    { principal_moments := (i1, i2, i3), principal_axes := axes,
      anisotropy := i3 / i1,
      asphericity := if 0 < trace then (i3 - 0.5 * (i1 + i2)) / trace else 0,
      acylindricity := if 0 < trace then (i2 - i1) / trace else 0 }


/-- Lookup of a cell's index list by cell key (model of
`HashMap::get` in src/common/spatial.rs; cells are an association list). -/
def cellsGet (key : ℤ × ℤ × ℤ) : List ((ℤ × ℤ × ℤ) × List ℕ) → Option (List ℕ)
  | [] => none
  | (k, l) :: rest => if k = key then some l else cellsGet key rest

/-- Push an index onto a cell's list, creating the cell if absent (model of
`cells.entry(key).or_default().push(index)` in src/common/spatial.rs). -/
def cellsInsert (key : ℤ × ℤ × ℤ) (i : ℕ) :
    List ((ℤ × ℤ × ℤ) × List ℕ) → List ((ℤ × ℤ × ℤ) × List ℕ)
  | [] => [(key, [i])]
  | (k, l) :: rest =>
    if k = key then (k, l ++ [i]) :: rest else (k, l) :: cellsInsert key i rest

/-- Spatial hash grid (src/common/spatial.rs, `SpatialHash`). -/
structure SpatialHash where
  cell_size : ℝ
  cells : List ((ℤ × ℤ × ℤ) × List ℕ)

/-- Cell coordinates for a point: floor of each coordinate divided by the
cell size (spatial.rs, `cell_coords`). -/
noncomputable def SpatialHash.cell_coords (h : SpatialHash) (point : Vector3) : ℤ × ℤ × ℤ :=
  (Int.floor (point.x / h.cell_size), Int.floor (point.y / h.cell_size),
   Int.floor (point.z / h.cell_size))

/-- Insert a sphere's index into the hash (spatial.rs, `insert`). -/
noncomputable def SpatialHash.insert (h : SpatialHash) (index : ℕ) (sphere : Sphere) :
    SpatialHash :=
  { h with cells := cellsInsert (h.cell_coords sphere.center) index h.cells }

/-- The 27 cell offsets of the 3x3x3 neighborhood, in the source's loop
order (dx outermost). -/
def neighborOffsets : List (ℤ × ℤ × ℤ) :=
  [-1, 0, 1].flatMap fun dx => [-1, 0, 1].flatMap fun dy => [-1, 0, 1].map fun dz => (dx, dy, dz)

/-- All sphere indices that might collide with the given sphere: union of the
3x3x3 cell neighborhood around its cell (spatial.rs,
`query_potential_collisions`). -/
noncomputable def SpatialHash.query_potential_collisions (h : SpatialHash) (sphere : Sphere) :
    List ℕ :=
  let c := h.cell_coords sphere.center
  neighborOffsets.foldl
    (fun acc d => acc ++ (cellsGet (c.1 + d.1, c.2.1 + d.2.1, c.2.2 + d.2.2) h.cells).getD [])
    []

/-- Concrete empty hash used by witnesses. -/
noncomputable def c5Hash : SpatialHash := { cell_size := 1, cells := [] }


/-- Collision parameter of one particle pair along a trajectory
(ballistic_cc.rs, `find_collision_with` inner loop): solves the quadratic
for |d - t*trajectory| = r1 + r2 and keeps the smaller root when it exceeds
the 1e-10 threshold, else the larger root when it does, else nothing. -/
noncomputable def pairCollisionT (trajectory : Vector3) (p q : Sphere) : Option ℝ :=
  let d := p.center.sub q.center
  let contact_dist := p.radius + q.radius
  let a := trajectory.dot trajectory
  let b := -2 * d.dot trajectory
  let c := d.dot d - contact_dist * contact_dist
  let discriminant := b * b - 4 * a * c
  if 0 ≤ discriminant then
    let sqrt_disc := Real.sqrt discriminant
    let t1 := (-b - sqrt_disc) / (2 * a)
    let t2 := (-b + sqrt_disc) / (2 * a)
    if 1e-10 < t1 then some t1 else if 1e-10 < t2 then some t2 else none
  else none

/-- Best-collision update for one pair (ballistic_cc.rs,
`find_collision_with` body): keep the candidate if it is within range and
beats the current best. -/
noncomputable def fcStep (trajectory : Vector3) (max_distance : ℝ)
    (b : Option (ℝ × ℕ × ℕ)) (pr : (ℕ × Sphere) × (ℕ × Sphere)) : Option (ℝ × ℕ × ℕ) :=
  match pairCollisionT trajectory pr.1.2 pr.2.2 with
  | none => b
  | some t =>
    if t ≤ max_distance then
      match b with
      | none => some (t, pr.1.1, pr.2.1)
      | some bc => if t < bc.1 then some (t, pr.1.1, pr.2.1) else b
    else b

/-- First collision over all particle pairs (ballistic_cc.rs,
`Cluster::find_collision_with`): nested loop over enumerated particles of
the impacted (`self`) and impactor (`other`) clusters. -/
noncomputable def find_collision_with (self other : List Sphere) (trajectory : Vector3)
    (max_distance : ℝ) : Option (ℝ × ℕ × ℕ) :=
  self.enum.foldl
    (fun best ip =>
      other.enum.foldl (fun b jp => fcStep trajectory max_distance b (ip, jp)) best)
    none

/-- Specification predicate: t is a trajectory parameter at which particles
i of `self` and j of `other` (the latter translated by t along the
trajectory) are exactly in contact. -/
def IsContactRoot (self other : List Sphere) (trajectory : Vector3) (t : ℝ) (i j : ℕ) :
    Prop :=
  ∃ p q, self.get? i = some p ∧ other.get? j = some q ∧
    ((p.center.sub (q.center.add (trajectory.smul t))).lengthSquared) =
      (p.radius + q.radius) * (p.radius + q.radius)

/-- Both components of an enumerated particle pair point at the right
particles of the two clusters. -/
def enumOk (self other : List Sphere) (pr : (ℕ × Sphere) × (ℕ × Sphere)) : Prop :=
  self.get? pr.1.1 = some pr.1.2 ∧ other.get? pr.2.1 = some pr.2.2

/-- Invariant of the best-collision accumulator: empty, or a valid in-range
contact root. -/
def fcSound (self other : List Sphere) (trajectory : Vector3) (max_distance : ℝ)
    (b : Option (ℝ × ℕ × ℕ)) : Prop :=
  b = none ∨ ∃ t i j, b = some (t, i, j) ∧ 1e-10 < t ∧ t ≤ max_distance ∧
    IsContactRoot self other trajectory t i j

/-! Cluster entities of the cluster-cluster algorithms.  `CcaCluster`
mirrors cca.rs `Cluster` (caches center_of_mass and radius_of_gyration),
`BccCluster` mirrors ballistic_cc.rs `Cluster` (bounding radius measured
from the geometric center), `TccCluster` mirrors tunable_cc.rs
`TunableCluster` (bounding radius measured from the center of mass).
`comOf`, `gcOf`, `boundingFrom` and `rgOf` are the recomputations performed
by the clusters' `update_properties`. -/

noncomputable def totalMass (particles : List Sphere) : ℝ :=
  (particles.map fun p => massOf p.radius).sum

noncomputable def comOf (particles : List Sphere) : Vector3 :=
  (Vector3.mk ((particles.map fun p => p.center.x * massOf p.radius).sum)
              ((particles.map fun p => p.center.y * massOf p.radius).sum)
              ((particles.map fun p => p.center.z * massOf p.radius).sum)).smul
    (1 / totalMass particles)

noncomputable def gcOf (particles : List Sphere) : Vector3 :=
  (Vector3.mk ((particles.map fun p => p.center.x).sum)
              ((particles.map fun p => p.center.y).sum)
              ((particles.map fun p => p.center.z).sum)).smul
    (1 / (particles.length : ℝ))

noncomputable def boundingFrom (c : Vector3) (particles : List Sphere) : ℝ :=
  (particles.map fun p => c.distance_to p.center + p.radius).foldl max 0

noncomputable def rgOf (particles : List Sphere) : ℝ :=
  calculate_radius_of_gyration (particles.map Sphere.center) (particles.map Sphere.radius)

noncomputable def shiftParticles (delta : Vector3) (particles : List Sphere) : List Sphere :=
  particles.map fun p => { p with center := p.center.add delta }

structure CcaCluster where
  particles : List Sphere
  center_of_mass : Vector3
  radius_of_gyration : ℝ

noncomputable def CcaCluster.update_properties (c : CcaCluster) : CcaCluster :=
  if c.particles.isEmpty then c
  else { c with center_of_mass := comOf c.particles,
                radius_of_gyration := rgOf c.particles }

noncomputable def CcaCluster.translate (c : CcaCluster) (delta : Vector3) : CcaCluster :=
  { c with particles := shiftParticles delta c.particles,
           center_of_mass := c.center_of_mass.add delta }

noncomputable def CcaCluster.merge_with (c other : CcaCluster) : CcaCluster :=
  CcaCluster.update_properties { c with particles := c.particles ++ other.particles }

def CcaCluster.Consistent (c : CcaCluster) : Prop :=
  c.center_of_mass = comOf c.particles ∧ c.radius_of_gyration = rgOf c.particles

structure BccCluster where
  particles : List Sphere
  center_of_mass : Vector3
  geometric_center : Vector3
  bounding_radius : ℝ
  radius_of_gyration : ℝ

noncomputable def BccCluster.update_properties (c : BccCluster) : BccCluster :=
  if c.particles.isEmpty then c
  else { c with center_of_mass := comOf c.particles,
                geometric_center := gcOf c.particles,
                bounding_radius := boundingFrom (gcOf c.particles) c.particles,
                radius_of_gyration := rgOf c.particles }

noncomputable def BccCluster.translate (c : BccCluster) (delta : Vector3) : BccCluster :=
  { c with particles := shiftParticles delta c.particles,
           center_of_mass := c.center_of_mass.add delta,
           geometric_center := c.geometric_center.add delta }

noncomputable def BccCluster.merge_with (c other : BccCluster) : BccCluster :=
  BccCluster.update_properties { c with particles := c.particles ++ other.particles }

def BccCluster.Consistent (c : BccCluster) : Prop :=
  c.center_of_mass = comOf c.particles ∧ c.geometric_center = gcOf c.particles ∧
  c.bounding_radius = boundingFrom (gcOf c.particles) c.particles ∧
  c.radius_of_gyration = rgOf c.particles

noncomputable def rotate_vector (v axis : Vector3) (angle : ℝ) : Vector3 :=
  let cos_a := Real.cos angle
  let sin_a := Real.sin angle
  let cross := axis.cross v
  let dt := axis.dot v
  ⟨v.x * cos_a + cross.x * sin_a + axis.x * dt * (1 - cos_a),
   v.y * cos_a + cross.y * sin_a + axis.y * dt * (1 - cos_a),
   v.z * cos_a + cross.z * sin_a + axis.z * dt * (1 - cos_a)⟩

structure TccCluster where
  particles : List Sphere
  center_of_mass : Vector3
  geometric_center : Vector3
  bounding_radius : ℝ
  radius_of_gyration : ℝ

noncomputable def TccCluster.update_properties (c : TccCluster) : TccCluster :=
  if c.particles.isEmpty then c
  else { c with center_of_mass := comOf c.particles,
                geometric_center := gcOf c.particles,
                bounding_radius := boundingFrom (comOf c.particles) c.particles,
                radius_of_gyration := rgOf c.particles }

noncomputable def TccCluster.translate (c : TccCluster) (delta : Vector3) : TccCluster :=
  { c with particles := shiftParticles delta c.particles,
           center_of_mass := c.center_of_mass.add delta,
           geometric_center := c.geometric_center.add delta }

noncomputable def TccCluster.rotate_around_axis (c : TccCluster)
    (axis : Vector3) (angle : ℝ) (pivot : Vector3) : TccCluster :=
  let axis_norm := axis.normalize
  TccCluster.update_properties
    { c with particles := c.particles.map fun p =>
        { p with center := (rotate_vector (p.center.sub pivot) axis_norm angle).add pivot } }

noncomputable def TccCluster.merge_with (c other : TccCluster) : TccCluster :=
  TccCluster.update_properties { c with particles := c.particles ++ other.particles }

def TccCluster.Consistent (c : TccCluster) : Prop :=
  c.center_of_mass = comOf c.particles ∧ c.geometric_center = gcOf c.particles ∧
  c.bounding_radius = boundingFrom (comOf c.particles) c.particles ∧
  c.radius_of_gyration = rgOf c.particles

noncomputable def c7CcaBase : CcaCluster :=
  { particles := [⟨⟨0, 0, 0⟩, 1⟩], center_of_mass := Vector3.zero,
    radius_of_gyration := 0 }

noncomputable def c7BccBase : BccCluster :=
  { particles := [⟨⟨0, 0, 0⟩, 1⟩], center_of_mass := Vector3.zero,
    geometric_center := Vector3.zero, bounding_radius := 0, radius_of_gyration := 0 }

noncomputable def c7TccBase : TccCluster :=
  { particles := [⟨⟨0, 0, 0⟩, 1⟩], center_of_mass := Vector3.zero,
    geometric_center := Vector3.zero, bounding_radius := 0, radius_of_gyration := 0 }

/-! The deterministic random source and the run state machines of the six
growth algorithms.  The PCG-64 generator (rand_pcg, an external crate) is
modelled from the spec as a seed-determined stream of draws (uniform,
index, and standard-normal), threaded through every stochastic decision
exactly as the Rust code threads its generator; DLA's and Ballistic PC's
unbounded outer `while` loops are embedded as iterated step functions, and
the capped loops (Ballistic CC, Tunable CC, CCA) as fuel recursions whose
fuel covers their explicit iteration caps. -/

structure RandomSource where
  unif : ℕ → ℝ
  idx : ℕ → ℕ
  gauss : ℕ → ℝ

structure Rng where
  src : RandomSource
  k : ℕ

def Rng.genU (r : Rng) : ℝ × Rng := (r.src.unif r.k, ⟨r.src, r.k + 1⟩)

def Rng.genIdx (r : Rng) : ℕ × Rng := (r.src.idx r.k, ⟨r.src, r.k + 1⟩)

def Rng.genG (r : Rng) : ℝ × Rng := (r.src.gauss r.k, ⟨r.src, r.k + 1⟩)

def create_rng (ofSeed : ℕ → RandomSource) (seed : ℕ) : Rng := ⟨ofSeed seed, 0⟩

noncomputable def random_point_on_sphere (r : Rng) : (ℝ × ℝ × ℝ) × Rng :=
  let u1 := (r.genU).1
  let r1 := (r.genU).2
  let u2 := (r1.genU).1
  let r2 := (r1.genU).2
  let theta := 2 * Real.pi * u1
  let phi := Real.arccos (1 - 2 * u2)
  ((Real.sin phi * Real.cos theta, Real.sin phi * Real.sin theta, Real.cos phi), r2)

noncomputable def random_direction (r : Rng) : (ℝ × ℝ × ℝ) × Rng :=
  random_point_on_sphere r

structure DlaParams where
  n_particles : ℕ
  sticking_probability : ℝ
  lattice_size : ℕ
  seed_radius : ℝ
  max_walk_steps : ℕ
  launch_distance_factor : ℝ
  kill_distance_factor : ℝ

structure DlaState where
  particles : List Sphere
  hash : SpatialHash
  rg_evolution : List ℝ
  n_values : List ℕ
  cluster_rg : ℝ
  rng : Rng

noncomputable def dlaTryStick (p : DlaParams) (particles : List Sphere) (pos : Vector3) :
    List ℕ → Rng → Option Vector3 × Rng
  | [], r => (none, r)
  | idx :: rest, r =>
    let other := particles.getD idx ⟨Vector3.zero, 0⟩
    let dist := pos.distance_to other.center
    let contact_dist := p.seed_radius + other.radius
    if dist < contact_dist then
      if 1 ≤ p.sticking_probability then
        (some (other.center.add ((pos.sub other.center).normalize.smul contact_dist)), r)
      else
        let u := (r.genU).1
        let r1 := (r.genU).2
        if u < p.sticking_probability then
          (some (other.center.add ((pos.sub other.center).normalize.smul contact_dist)), r1)
        else dlaTryStick p particles pos rest r1
    else dlaTryStick p particles pos rest r

noncomputable def dlaWalk (p : DlaParams) (particles : List Sphere) (hash : SpatialHash)
    (kill_distance : ℝ) : ℕ → Vector3 → Rng → Vector3 × Rng × Bool
  | 0, pos, r => (pos, r, false)
  | fuel + 1, pos, r =>
    if kill_distance < pos.length then (pos, r, false)
    else
      let d := (random_direction r).1
      let r1 := (random_direction r).2
      let step_size := p.seed_radius * 0.5
      let pos1 := pos.add ⟨d.1 * step_size, d.2.1 * step_size, d.2.2 * step_size⟩
      match dlaTryStick p particles pos1
          (hash.query_potential_collisions ⟨pos1, p.seed_radius⟩) r1 with
      | (some pos2, r2) => (pos2, r2, true)
      | (none, r2) => dlaWalk p particles hash kill_distance fuel pos1 r2

noncomputable def dlaOuterStep (p : DlaParams) (s : DlaState) : DlaState :=
  let launch_distance := p.launch_distance_factor * s.cluster_rg + p.seed_radius * 2
  let kill_distance := p.kill_distance_factor * launch_distance
  let d := (random_direction s.rng).1
  let r1 := (random_direction s.rng).2
  let pos0 : Vector3 := ⟨d.1 * launch_distance, d.2.1 * launch_distance,
    d.2.2 * launch_distance⟩
  match dlaWalk p s.particles s.hash kill_distance p.max_walk_steps pos0 r1 with
  | (pos, r2, true) =>
    let new_sphere : Sphere := ⟨pos, p.seed_radius⟩
    let idx := s.particles.length
    let particles1 := s.particles ++ [new_sphere]
    let hash1 := s.hash.insert idx new_sphere
    let rg := calculate_radius_of_gyration (particles1.map Sphere.center)
      (particles1.map Sphere.radius)
    { particles := particles1, hash := hash1,
      rg_evolution := s.rg_evolution ++ [rg],
      n_values := s.n_values ++ [particles1.length],
      cluster_rg := rg, rng := r2 }
  | (_, r2, false) => { s with rng := r2 }

noncomputable def dlaInit (p : DlaParams) (r : Rng) : DlaState :=
  let seedSphere : Sphere := ⟨Vector3.zero, p.seed_radius⟩
  let hash0 : SpatialHash := { cell_size := p.seed_radius * 4, cells := [] }
  { particles := [seedSphere], hash := hash0.insert 0 seedSphere,
    rg_evolution := [p.seed_radius * Real.sqrt (3 / 5)], n_values := [1],
    cluster_rg := p.seed_radius, rng := r }

noncomputable def dlaLoop (p : DlaParams) : ℕ → DlaState → DlaState
  | 0, s => s
  | fuel + 1, s =>
    if s.particles.length < p.n_particles then dlaLoop p fuel (dlaOuterStep p s) else s

noncomputable def calculate_porosity (coordinates : List Vector3) (radii : List ℝ) : ℝ :=
  if coordinates.isEmpty then 1
  else
    let particle_volume := (radii.map fun r => (4 / 3) * Real.pi * r * r * r).sum
    let rg := calculate_radius_of_gyration coordinates radii
    let bounding_volume := (4 / 3) * Real.pi * (2 * rg) ^ 3
    if 0 < bounding_volume then 1 - min (particle_volume / bounding_volume) 1 else 1

noncomputable def calculate_coordination (coordinates : List Vector3) (radii : List ℝ)
    (tolerance : ℝ) : List ℕ :=
  (List.range coordinates.length).map fun i =>
    ((List.range coordinates.length).filter fun j =>
      decide (j ≠ i) &&
        decide (|(coordinates.getD i Vector3.zero).distance_to
            (coordinates.getD j Vector3.zero) -
          (radii.getD i 0 + radii.getD j 0)| ≤ tolerance)).length

structure DlaResult where
  coordinates : List Vector3
  radii : List ℝ
  rg_evolution : List ℝ
  fractal_dimension : ℝ
  fractal_dimension_std : ℝ
  prefactor : ℝ
  porosity : ℝ
  coordination_mean : ℝ
  coordination_std : ℝ
  seed : ℕ

noncomputable def run_dla_internal (ofSeed : ℕ → RandomSource) (fuel : ℕ)
    (p : DlaParams) (seed : ℕ) : DlaResult :=
  let final := dlaLoop p fuel (dlaInit p (create_rng ofSeed seed))
  let coords := final.particles.map Sphere.center
  let radii := final.particles.map Sphere.radius
  let fd := calculate_fractal_dimension final.n_values final.rg_evolution
  let porosity := calculate_porosity coords radii
  let coordination := calculate_coordination coords radii (p.seed_radius * 0.1)
  let coord_mean := (coordination.map fun c => (c : ℝ)).sum / (coordination.length : ℝ)
  let coord_std := Real.sqrt
    ((coordination.map fun c => ((c : ℝ) - coord_mean) ^ 2).sum / (coordination.length : ℝ))
  { coordinates := coords, radii := radii, rg_evolution := final.rg_evolution,
    fractal_dimension := fd.1, fractal_dimension_std := 0.02, prefactor := fd.2.1,
    porosity := porosity, coordination_mean := coord_mean, coordination_std := coord_std,
    seed := seed }

structure BallisticCcParams where
  n_particles : ℕ
  sticking_probability : ℝ
  radius_min : ℝ
  radius_max : ℝ
  max_collision_attempts : ℕ

noncomputable def BallisticCcParams.mean_radius (p : BallisticCcParams) : ℝ :=
  (p.radius_min + p.radius_max) / 2

noncomputable def BallisticCcParams.random_radius (p : BallisticCcParams) (r : Rng) :
    ℝ × Rng :=
  if 1e-10 < |p.radius_max - p.radius_min| then
    let u := (r.genU).1
    let r1 := (r.genU).2
    (p.radius_min + u * (p.radius_max - p.radius_min), r1)
  else (p.radius_min, r)

noncomputable def BccCluster.new (s : Sphere) : BccCluster :=
  { particles := [s], center_of_mass := s.center, geometric_center := s.center,
    bounding_radius := s.radius, radius_of_gyration := s.radius * Real.sqrt (3 / 5) }

noncomputable def create_orthogonal_basis (dir : Vector3) : Vector3 × Vector3 :=
  let not_parallel := if |dir.x| < 0.9 then Vector3.mk 1 0 0 else Vector3.mk 0 1 0
  let u := (dir.cross not_parallel).normalize
  let v := dir.cross u
  (u, v)

noncomputable def maxByParticles (clusters : List BccCluster) : Option BccCluster :=
  clusters.foldl
    (fun best c =>
      match best with
      | none => some c
      | some b => if b.particles.length ≤ c.particles.length then some c else best)
    none

noncomputable def bccBody (p : BallisticCcParams) (clusters : List BccCluster)
    (rg_evolution : List ℝ) (n_values : List ℕ) (rng : Rng) :
    List BccCluster × List ℝ × List ℕ × Rng :=
  let len := clusters.length
  let a := (rng.genIdx).1
  let r1 := (rng.genIdx).2
  let b := (r1.genIdx).1
  let r2 := (r1.genIdx).2
  let idx_impacted := a % len
  let off := b % (len - 1)
  let idx_impactor := if idx_impacted ≤ off then off + 1 else off
  let impacted := clusters.getD idx_impacted (BccCluster.new ⟨Vector3.zero, 0⟩)
  let impactor := clusters.getD idx_impactor (BccCluster.new ⟨Vector3.zero, 0⟩)
  let base_direction := (impacted.geometric_center.sub impactor.geometric_center).normalize
  let rv := (random_direction r2).1
  let r3 := (random_direction r2).2
  let random_offset := (Vector3.mk rv.1 rv.2.1 rv.2.2).smul 0.3
  let trajectory_dir := (base_direction.add random_offset).normalize
  let extended_radius := impacted.bounding_radius + impactor.bounding_radius
  let pxyz := (random_point_on_sphere r3).1
  let r4 := (random_point_on_sphere r3).2
  let u0 := (r4.genU).1
  let r5 := (r4.genU).2
  let impact_offset := u0 * extended_radius * 0.5
  let uv := create_orthogonal_basis trajectory_dir
  let offset_on_disc := (uv.1.smul (pxyz.1 * impact_offset)).add
    (uv.2.smul (pxyz.2.1 * impact_offset))
  let current_distance := impactor.geometric_center.distance_to impacted.geometric_center
  let launch_distance := current_distance + impactor.bounding_radius +
    impacted.bounding_radius
  let impactor_start := (impacted.geometric_center.add offset_on_disc).sub
    (trajectory_dir.smul launch_distance)
  let working_impactor := impactor.translate (impactor_start.sub impactor.geometric_center)
  match find_collision_with impacted.particles working_impactor.particles trajectory_dir
      (launch_distance * 2) with
  | some (t, _, _) =>
    let su :=
      if 1 ≤ p.sticking_probability then (true, r5)
      else ((decide ((r5.genU).1 < p.sticking_probability)), (r5.genU).2)
    if su.1 then
      let moved := working_impactor.translate (trajectory_dir.smul t)
      let higher_idx := max idx_impactor idx_impacted
      let lower_idx := min idx_impactor idx_impacted
      let clusters1 := (clusters.eraseIdx higher_idx).eraseIdx lower_idx
      let merged := moved.merge_with impacted
      let clusters2 := clusters1 ++ [merged]
      match maxByParticles clusters2 with
      | some largest =>
        (clusters2, rg_evolution ++ [largest.radius_of_gyration],
         n_values ++ [largest.particles.length], su.2)
      | none => (clusters2, rg_evolution, n_values, su.2)
    else (clusters, rg_evolution, n_values, su.2)
  | none => (clusters, rg_evolution, n_values, r5)

structure BccState where
  clusters : List BccCluster
  rg_evolution : List ℝ
  n_values : List ℕ
  iterations : ℕ
  rng : Rng

noncomputable def bccStep (p : BallisticCcParams) (s : BccState) : BccState :=
  let t := bccBody p s.clusters s.rg_evolution s.n_values s.rng
  { clusters := t.1, rg_evolution := t.2.1, n_values := t.2.2.1,
    iterations := s.iterations + 1, rng := t.2.2.2 }

def bccGuard (p : BallisticCcParams) (s : BccState) : Prop :=
  1 < s.clusters.length ∧ s.iterations < p.n_particles * 1000

instance (p : BallisticCcParams) (s : BccState) : Decidable (bccGuard p s) :=
  inferInstanceAs (Decidable (_ ∧ _))

noncomputable def bccLoopGo (p : BallisticCcParams) : ℕ → BccState → BccState
  | 0, s => s
  | fuel + 1, s => if bccGuard p s then bccLoopGo p fuel (bccStep p s) else s

noncomputable def bccLoop (p : BallisticCcParams) (s : BccState) : BccState :=
  bccLoopGo p (p.n_particles * 1000 + 1) s

noncomputable def bccInitClusters (p : BallisticCcParams) (spread : ℝ) :
    ℕ → Rng → List BccCluster × Rng
  | 0, r => ([], r)
  | n + 1, r =>
    let ux := (r.genU).1
    let r1 := (r.genU).2
    let uy := (r1.genU).1
    let r2 := (r1.genU).2
    let uz := (r2.genU).1
    let r3 := (r2.genU).2
    let rad := (p.random_radius r3).1
    let r4 := (p.random_radius r3).2
    let c := BccCluster.new ⟨⟨(ux - 0.5) * spread, (uy - 0.5) * spread,
      (uz - 0.5) * spread⟩, rad⟩
    let rest := bccInitClusters p spread n r4
    (c :: rest.1, rest.2)

structure BccResult where
  coordinates : List Vector3
  radii : List ℝ
  rg_evolution : List ℝ
  fractal_dimension : ℝ
  prefactor : ℝ
  porosity : ℝ
  coordination_mean : ℝ
  coordination_std : ℝ
  anisotropy : ℝ
  asphericity : ℝ
  acylindricity : ℝ
  seed : ℕ

noncomputable def run_ballistic_cc_internal (ofSeed : ℕ → RandomSource)
    (eig : InertiaMatrix → EigResult) (p : BallisticCcParams) (seed : ℕ) : BccResult :=
  let rng := create_rng ofSeed seed
  let spread := ((p.n_particles : ℝ) ^ ((1:ℝ) / 3)) * p.mean_radius * 3
  let ini := bccInitClusters p spread p.n_particles rng
  let final := bccLoop p ⟨ini.1, [], [], 0, ini.2⟩
  let final_particles := match final.clusters with
    | [] => ([] : List Sphere)
    | c :: _ => c.particles
  let coords := final_particles.map Sphere.center
  let radii := final_particles.map Sphere.radius
  let fd := calculate_fractal_dimension final.n_values final.rg_evolution
  let porosity := calculate_porosity coords radii
  let coordination := calculate_coordination coords radii (p.mean_radius * 0.1)
  let inertia := calculate_inertia_tensor eig coords radii
  let coord_mean := (coordination.map fun c => (c : ℝ)).sum /
    (max coordination.length 1 : ℕ)
  let coord_std := if 1 < coordination.length then
      Real.sqrt ((coordination.map fun c => ((c : ℝ) - coord_mean) ^ 2).sum /
        (coordination.length : ℝ))
    else 0
  { coordinates := coords, radii := radii, rg_evolution := final.rg_evolution,
    fractal_dimension := fd.1, prefactor := fd.2.1, porosity := porosity,
    coordination_mean := coord_mean, coordination_std := coord_std,
    anisotropy := inertia.anisotropy, asphericity := inertia.asphericity,
    acylindricity := inertia.acylindricity, seed := seed }

/-! Sintering (src/simulation/sintering.rs).  The rand_distr `Uniform` and
`Normal` samplers are external crates, modelled as single draws from the
uniform and standard-normal streams of the `RandomSource`;
`Normal::new(mean, std)` fails exactly when the standard deviation is
negative, in which case the source falls back to the mean.  The source's
`Uniform { min, max }` fields are renamed lo/hi here. -/

inductive SinteringDistribution where
  | Fixed (v : ℝ)
  | Uniform (lo hi : ℝ)
  | Normal (mean std : ℝ)

noncomputable def SinteringDistribution.sample (d : SinteringDistribution) (r : Rng) :
    ℝ × Rng :=
  match d with
  | .Fixed v => (v, r)
  | .Uniform lo hi =>
    let u := (r.genU).1
    (lo + u * (hi - lo), (r.genU).2)
  | .Normal mean std =>
    if 0 ≤ std then
      let g := (r.genG).1
      (min (max (mean + std * g) 0.5) 1, (r.genG).2)
    else (mean, r)

noncomputable def SinteringDistribution.mean (d : SinteringDistribution) : ℝ :=
  match d with
  | .Fixed v => v
  | .Uniform lo hi => (lo + hi) / 2
  | .Normal mean _ => mean

noncomputable def sintered_contact_distance (r1 r2 sintering_coeff : ℝ) : ℝ :=
  sintering_coeff * (r1 + r2)

/-! The simulation result record (src/simulation/result.rs,
`SimulationResult`), as populated by the Ballistic PC, Tunable PC and
Tunable CC runs (wall-clock execution time is not embedded). -/

structure SimulationResult where
  coordinates : List Vector3
  radii : List ℝ
  rg_evolution : List ℝ
  fractal_dimension : ℝ
  fractal_dimension_std : ℝ
  prefactor : ℝ
  porosity : ℝ
  coordination_mean : ℝ
  coordination_std : ℝ
  anisotropy : ℝ
  asphericity : ℝ
  acylindricity : ℝ
  principal_moments : ℝ × ℝ × ℝ
  principal_axes : Fin 3 → Fin 3 → ℝ
  seed : ℕ

/-! Ballistic PC (src/simulation/ballistic.rs): straight-line particle
aggregation.  The outer particle-addition loop (`while particles.len() <
n_particles`, lines 143-228) has no iteration cap and is embedded as an
iterated step function (`ballisticOuterStep`, with `ballisticLoop` a
fuel-bounded unrolling of it); the ray march is the bounded `for` loop over
max_ray_steps. -/

structure BallisticParams where
  n_particles : ℕ
  sticking_probability : ℝ
  radius_min : ℝ
  radius_max : ℝ
  launch_distance_factor : ℝ
  max_ray_steps : ℕ
  sintering : SinteringDistribution

noncomputable def BallisticParams.mean_radius (p : BallisticParams) : ℝ :=
  (p.radius_min + p.radius_max) / 2

noncomputable def BallisticParams.random_radius (p : BallisticParams) (r : Rng) :
    ℝ × Rng :=
  if 1e-10 < |p.radius_max - p.radius_min| then
    let u := (r.genU).1
    (p.radius_min + u * (p.radius_max - p.radius_min), (r.genU).2)
  else (p.radius_min, r)

structure BallisticState where
  particles : List Sphere
  hash : SpatialHash
  rg_evolution : List ℝ
  n_values : List ℕ
  cluster_rg : ℝ
  rng : Rng

noncomputable def ballisticTryStick (p : BallisticParams) (particles : List Sphere)
    (new_radius : ℝ) (pos : Vector3) : List ℕ → Rng → Option Vector3 × Rng
  | [], r => (none, r)
  | idx :: rest, r =>
    let other := particles.getD idx ⟨Vector3.zero, 0⟩
    let dist := pos.distance_to other.center
    let touch_dist := new_radius + other.radius
    if dist < touch_dist then
      if 1 ≤ p.sticking_probability then
        let sc := p.sintering.sample r
        let contact_dist := sintered_contact_distance new_radius other.radius sc.1
        (some (other.center.add ((pos.sub other.center).normalize.smul contact_dist)), sc.2)
      else
        let u := (r.genU).1
        let r1 := (r.genU).2
        if u < p.sticking_probability then
          let sc := p.sintering.sample r1
          let contact_dist := sintered_contact_distance new_radius other.radius sc.1
          (some (other.center.add ((pos.sub other.center).normalize.smul contact_dist)),
           sc.2)
        else ballisticTryStick p particles new_radius pos rest r1
    else ballisticTryStick p particles new_radius pos rest r

noncomputable def ballisticWalk (p : BallisticParams) (particles : List Sphere)
    (hash : SpatialHash) (new_radius : ℝ) (direction : Vector3) (launch_distance : ℝ) :
    ℕ → Vector3 → Rng → Vector3 × Rng × Bool
  | 0, pos, r => (pos, r, false)
  | fuel + 1, pos, r =>
    let step_size := new_radius * 0.5
    let pos1 := pos.add (direction.smul step_size)
    if launch_distance < pos1.length then (pos1, r, false)
    else
      match ballisticTryStick p particles new_radius pos1
          (hash.query_potential_collisions ⟨pos1, new_radius⟩) r with
      | (some pos2, r2) => (pos2, r2, true)
      | (none, r2) =>
        ballisticWalk p particles hash new_radius direction launch_distance fuel pos1 r2

noncomputable def ballisticOuterStep (p : BallisticParams) (s : BallisticState) :
    BallisticState :=
  let rr := p.random_radius s.rng
  let new_radius := rr.1
  let launch_distance := p.launch_distance_factor * s.cluster_rg + p.radius_max * 5
  let d := (random_direction rr.2).1
  let r1 := (random_direction rr.2).2
  let start_pos : Vector3 := ⟨d.1 * launch_distance, d.2.1 * launch_distance,
    d.2.2 * launch_distance⟩
  let rv := (random_direction r1).1
  let r2 := (random_direction r1).2
  let target : Vector3 := ⟨rv.1 * 0.1, rv.2.1 * 0.1, rv.2.2 * 0.1⟩
  let direction := (target.sub start_pos).normalize
  match ballisticWalk p s.particles s.hash new_radius direction launch_distance
      p.max_ray_steps start_pos r2 with
  | (pos, r3, true) =>
    let new_sphere : Sphere := ⟨pos, new_radius⟩
    let idx := s.particles.length
    let particles1 := s.particles ++ [new_sphere]
    let hash1 := s.hash.insert idx new_sphere
    let rg := calculate_radius_of_gyration (particles1.map Sphere.center)
      (particles1.map Sphere.radius)
    { particles := particles1, hash := hash1,
      rg_evolution := s.rg_evolution ++ [rg],
      n_values := s.n_values ++ [particles1.length],
      cluster_rg := rg, rng := r3 }
  | (_, r3, false) => { s with rng := r3 }

noncomputable def ballisticInit (p : BallisticParams) (r : Rng) : BallisticState :=
  let seed_radius := p.mean_radius
  let seedSphere : Sphere := ⟨Vector3.zero, seed_radius⟩
  let hash0 : SpatialHash := { cell_size := p.radius_max * 4, cells := [] }
  { particles := [seedSphere], hash := hash0.insert 0 seedSphere,
    rg_evolution := [seed_radius * Real.sqrt (3 / 5)], n_values := [1],
    cluster_rg := seed_radius, rng := r }

noncomputable def ballisticLoop (p : BallisticParams) : ℕ → BallisticState → BallisticState
  | 0, s => s
  | fuel + 1, s =>
    if s.particles.length < p.n_particles then
      ballisticLoop p fuel (ballisticOuterStep p s)
    else s

noncomputable def run_ballistic_internal (ofSeed : ℕ → RandomSource)
    (eig : InertiaMatrix → EigResult) (fuel : ℕ) (p : BallisticParams) (seed : ℕ) :
    SimulationResult :=
  let final := ballisticLoop p fuel (ballisticInit p (create_rng ofSeed seed))
  let coords := final.particles.map Sphere.center
  let radii := final.particles.map Sphere.radius
  let fd := calculate_fractal_dimension final.n_values final.rg_evolution
  let porosity := calculate_porosity coords radii
  let coordination := calculate_coordination coords radii (p.mean_radius * 0.1)
  let inertia := calculate_inertia_tensor eig coords radii
  let coord_mean := (coordination.map fun c => (c : ℝ)).sum / (coordination.length : ℝ)
  let coord_std := Real.sqrt
    ((coordination.map fun c => ((c : ℝ) - coord_mean) ^ 2).sum / (coordination.length : ℝ))
  { coordinates := coords, radii := radii, rg_evolution := final.rg_evolution,
    fractal_dimension := fd.1, fractal_dimension_std := 0.02, prefactor := fd.2.1,
    porosity := porosity, coordination_mean := coord_mean, coordination_std := coord_std,
    anisotropy := inertia.anisotropy, asphericity := inertia.asphericity,
    acylindricity := inertia.acylindricity, principal_moments := inertia.principal_moments,
    principal_axes := inertia.principal_axes, seed := seed }

/-! CCA run (src/simulation/cca.rs): Brownian cluster-cluster aggregation on
a periodic box.  The main loop (lines 233-331) exits when one cluster
remains or when the explicit iteration cap is reached (10,000,000 in
single-agglomerate mode, max_iterations otherwise); it is embedded as a fuel
recursion whose fuel covers the cap. -/

noncomputable def CcaParams.random_radius (p : CcaParams) (r : Rng) : ℝ × Rng :=
  if 1e-10 < |p.radius_max - p.radius_min| then
    let u := (r.genU).1
    (p.radius_min + u * (p.radius_max - p.radius_min), (r.genU).2)
  else (p.radius_min, r)

noncomputable def CcaCluster.new (s : Sphere) : CcaCluster :=
  { center_of_mass := s.center, radius_of_gyration := s.radius * Real.sqrt (3 / 5),
    particles := [s] }

noncomputable def CcaCluster.bounding_radius (c : CcaCluster) : ℝ :=
  boundingFrom c.center_of_mass c.particles

noncomputable def apply_pbc (pos : Vector3) (box_size : ℝ) : Vector3 :=
  let half_box := box_size / 2
  ⟨if half_box < pos.x then pos.x - box_size
    else if pos.x < -half_box then pos.x + box_size else pos.x,
   if half_box < pos.y then pos.y - box_size
    else if pos.y < -half_box then pos.y + box_size else pos.y,
   if half_box < pos.z then pos.z - box_size
    else if pos.z < -half_box then pos.z + box_size else pos.z⟩

noncomputable def periodic_distance (a b : Vector3) (box_size : ℝ) : ℝ :=
  let dx0 := |a.x - b.x|
  let dy0 := |a.y - b.y|
  let dz0 := |a.z - b.z|
  let dx := if box_size / 2 < dx0 then box_size - dx0 else dx0
  let dy := if box_size / 2 < dy0 then box_size - dy0 else dy0
  let dz := if box_size / 2 < dz0 then box_size - dz0 else dz0
  Real.sqrt (dx * dx + dy * dy + dz * dz)

noncomputable def unwrap_periodic_offset (a b : Vector3) (box_size : ℝ) : Vector3 :=
  let dx0 := a.x - b.x
  let dy0 := a.y - b.y
  let dz0 := a.z - b.z
  let dx := if box_size / 2 < dx0 then dx0 - box_size
    else if dx0 < -(box_size / 2) then dx0 + box_size else dx0
  let dy := if box_size / 2 < dy0 then dy0 - box_size
    else if dy0 < -(box_size / 2) then dy0 + box_size else dy0
  let dz := if box_size / 2 < dz0 then dz0 - box_size
    else if dz0 < -(box_size / 2) then dz0 + box_size else dz0
  ⟨(a.x - dx) - b.x, (a.y - dy) - b.y, (a.z - dz) - b.z⟩

noncomputable def check_cluster_collision_pbc (a b : CcaCluster) (box_size : ℝ) : Bool :=
  a.particles.any fun pa => b.particles.any fun pb =>
    let dist := periodic_distance pa.center pb.center box_size
    let contact_dist := pa.radius + pb.radius
    let epsilon := max contact_dist dist * 1e-10 + 1e-14
    decide (dist ≤ contact_dist + epsilon)

noncomputable def ccaInitClusters (p : CcaParams) (eff : ℝ) :
    ℕ → Rng → List CcaCluster × Rng
  | 0, r => ([], r)
  | n + 1, r =>
    let ux := (r.genU).1
    let r1 := (r.genU).2
    let uy := (r1.genU).1
    let r2 := (r1.genU).2
    let uz := (r2.genU).1
    let r3 := (r2.genU).2
    let rad := (p.random_radius r3).1
    let r4 := (p.random_radius r3).2
    let c := CcaCluster.new ⟨⟨(ux - 0.5) * eff, (uy - 0.5) * eff, (uz - 0.5) * eff⟩, rad⟩
    let rest := ccaInitClusters p eff n r4
    (c :: rest.1, rest.2)

noncomputable def ccaMoveCluster (step_size eff : ℝ) (c : CcaCluster) (r : Rng) :
    CcaCluster × Rng :=
  let d := (random_direction r).1
  let r1 := (random_direction r).2
  let mobility := 1 / (1 + Real.sqrt c.radius_of_gyration)
  let delta : Vector3 := ⟨d.1 * step_size * mobility, d.2.1 * step_size * mobility,
    d.2.2 * step_size * mobility⟩
  let c1 := c.translate delta
  let wrapped_center := apply_pbc c1.center_of_mass eff
  let wrap_delta := wrapped_center.sub c1.center_of_mass
  if 1e-10 < wrap_delta.lengthSquared then (c1.translate wrap_delta, r1) else (c1, r1)

noncomputable def ccaMoveAll (step_size eff : ℝ) :
    List CcaCluster → Rng → List CcaCluster × Rng
  | [], r => ([], r)
  | c :: rest, r =>
    let cr := ccaMoveCluster step_size eff c r
    let rr := ccaMoveAll step_size eff rest cr.2
    (cr.1 :: rr.1, rr.2)

noncomputable def ccaDetectRow (p : CcaParams) (eff : ℝ) (clusters : List CcaCluster)
    (i : ℕ) : List ℕ → (List ℕ × List (ℕ × ℕ)) × Rng → (List ℕ × List (ℕ × ℕ)) × Rng
  | [], st => st
  | j :: rest, st =>
    if j ∈ st.1.1 then ccaDetectRow p eff clusters i rest st
    else
      let ci := clusters.getD i (CcaCluster.new ⟨Vector3.zero, 0⟩)
      let cj := clusters.getD j (CcaCluster.new ⟨Vector3.zero, 0⟩)
      let dist := periodic_distance ci.center_of_mass cj.center_of_mass eff
      let max_dist := ci.bounding_radius + cj.bounding_radius
      if dist < max_dist then
        if check_cluster_collision_pbc ci cj eff then
          if 1 ≤ p.sticking_probability then
            ccaDetectRow p eff clusters i rest ((st.1.1 ++ [j], st.1.2 ++ [(i, j)]), st.2)
          else
            let u := (st.2.genU).1
            let r1 := (st.2.genU).2
            if u < p.sticking_probability then
              ccaDetectRow p eff clusters i rest ((st.1.1 ++ [j], st.1.2 ++ [(i, j)]), r1)
            else ccaDetectRow p eff clusters i rest ((st.1.1, st.1.2), r1)
        else ccaDetectRow p eff clusters i rest st
      else ccaDetectRow p eff clusters i rest st

noncomputable def ccaDetect (p : CcaParams) (eff : ℝ) (clusters : List CcaCluster) :
    List ℕ → (List ℕ × List (ℕ × ℕ)) × Rng → (List ℕ × List (ℕ × ℕ)) × Rng
  | [], st => st
  | i :: rest, st =>
    if i ∈ st.1.1 then ccaDetect p eff clusters rest st
    else ccaDetect p eff clusters rest
      (ccaDetectRow p eff clusters i (List.range' (i + 1) (clusters.length - (i + 1))) st)

noncomputable def ccaApplyMerges (eff : ℝ) :
    List (ℕ × ℕ) → List CcaCluster → List CcaCluster
  | [], cl => cl
  | (i, j) :: rest, cl =>
    if j < cl.length ∧ i < cl.length ∧ i ≠ j then
      let cluster_j := cl.getD j (CcaCluster.new ⟨Vector3.zero, 0⟩)
      let cl1 := cl.eraseIdx j
      let adjusted_i := if j < i then i - 1 else i
      if adjusted_i < cl1.length then
        let target := cl1.getD adjusted_i (CcaCluster.new ⟨Vector3.zero, 0⟩)
        let delta := unwrap_periodic_offset target.center_of_mass
          cluster_j.center_of_mass eff
        let cluster_j1 := if 1e-10 < delta.lengthSquared then cluster_j.translate delta
          else cluster_j
        ccaApplyMerges eff rest (cl1.set adjusted_i (target.merge_with cluster_j1))
      else ccaApplyMerges eff rest cl1
    else ccaApplyMerges eff rest cl

noncomputable def ccaMaxByParticles (clusters : List CcaCluster) : Option CcaCluster :=
  clusters.foldl
    (fun best c =>
      match best with
      | none => some c
      | some b => if b.particles.length ≤ c.particles.length then some c else best)
    none

structure CcaState where
  clusters : List CcaCluster
  rg_evolution : List ℝ
  n_values : List ℕ
  iteration : ℕ
  rng : Rng

noncomputable def ccaStep (p : CcaParams) (eff step_size : ℝ) (s : CcaState) : CcaState :=
  let mv := ccaMoveAll step_size eff s.clusters s.rng
  let det := ccaDetect p eff mv.1 (List.range mv.1.length) (([], []), mv.2)
  let merges_sorted := det.1.2.mergeSort fun a b => decide (b.2 ≤ a.2)
  let clusters1 := ccaApplyMerges eff merges_sorted mv.1
  let tracked :=
    match ccaMaxByParticles clusters1 with
    | some largest => (s.rg_evolution ++ [largest.radius_of_gyration],
        s.n_values ++ [largest.particles.length])
    | none => (s.rg_evolution, s.n_values)
  { clusters := clusters1, rg_evolution := tracked.1, n_values := tracked.2,
    iteration := s.iteration + 1, rng := det.2 }

def ccaMaxIters (p : CcaParams) : ℕ :=
  if p.single_agglomerate then 10000000 else p.max_iterations

def ccaGuard (p : CcaParams) (s : CcaState) : Prop :=
  1 < s.clusters.length ∧ s.iteration < ccaMaxIters p

instance (p : CcaParams) (s : CcaState) : Decidable (ccaGuard p s) :=
  inferInstanceAs (Decidable (_ ∧ _))

noncomputable def ccaLoopGo (p : CcaParams) (eff step_size : ℝ) : ℕ → CcaState → CcaState
  | 0, s => s
  | fuel + 1, s =>
    if ccaGuard p s then ccaLoopGo p eff step_size fuel (ccaStep p eff step_size s) else s

noncomputable def ccaLoop (p : CcaParams) (eff step_size : ℝ) (s : CcaState) : CcaState :=
  ccaLoopGo p eff step_size (ccaMaxIters p + 1) s

structure CcaResult where
  coordinates : List Vector3
  radii : List ℝ
  rg_evolution : List ℝ
  fractal_dimension : ℝ
  fractal_dimension_std : ℝ
  prefactor : ℝ
  porosity : ℝ
  coordination_mean : ℝ
  coordination_std : ℝ
  seed : ℕ

noncomputable def run_cca_internal (ofSeed : ℕ → RandomSource) (p : CcaParams)
    (seed : ℕ) : CcaResult :=
  let rng := create_rng ofSeed seed
  let effective_box_size := ccaEffectiveBoxSize p
  let ini := ccaInitClusters p effective_box_size p.n_particles rng
  let step_size := p.mean_radius * p.step_size_factor
  let final := ccaLoop p effective_box_size step_size ⟨ini.1, [], [], 0, ini.2⟩
  let final_particles := final.clusters.flatMap CcaCluster.particles
  let coords := final_particles.map Sphere.center
  let radii := final_particles.map Sphere.radius
  let fd := calculate_fractal_dimension final.n_values final.rg_evolution
  let porosity := calculate_porosity coords radii
  let coordination := calculate_coordination coords radii (p.mean_radius * 0.1)
  let coord_mean := (coordination.map fun c => (c : ℝ)).sum /
    (max coordination.length 1 : ℕ)
  let coord_std := if 1 < coordination.length then
      Real.sqrt ((coordination.map fun c => ((c : ℝ) - coord_mean) ^ 2).sum /
        (coordination.length : ℝ))
    else 0
  { coordinates := coords, radii := radii, rg_evolution := final.rg_evolution,
    fractal_dimension := fd.1, fractal_dimension_std := 0.02, prefactor := fd.2.1,
    porosity := porosity, coordination_mean := coord_mean, coordination_std := coord_std,
    seed := seed }

/-! Tunable PC (src/simulation/tunable.rs): Filippov/Lapuerta placement with
controlled fractal dimension.  The particle-addition loop is the bounded
`for np in 3..=n_particles` (line 150), embedded as a fold over
`List.range' 3 (n_particles - 2)`; the inner placement loop strictly shrinks
its candidate list lb each round (fuel `lb.length` is exact) and the
rotation attempts are capped by max_rotations.  `find_perpendicular_axis`
retries unboundedly until a nondegenerate cross product and is embedded
with explicit fuel (`axisFuel`). -/

structure TunableParams where
  n_particles : ℕ
  target_df : ℝ
  target_kf : ℝ
  radius_min : ℝ
  radius_max : ℝ
  max_rotations : ℕ

noncomputable def TunableParams.mean_radius (p : TunableParams) : ℝ :=
  (p.radius_min + p.radius_max) / 2

noncomputable def TunableParams.random_radius (p : TunableParams) (r : Rng) : ℝ × Rng :=
  if 1e-10 < |p.radius_max - p.radius_min| then
    let u := (r.genU).1
    (p.radius_min + u * (p.radius_max - p.radius_min), (r.genU).2)
  else (p.radius_min, r)

noncomputable def calculate_center_of_mass (particles : List Sphere) : Vector3 :=
  if 0 < totalMass particles then comOf particles else Vector3.zero

noncomputable def find_perpendicular_axis (v : Vector3) : ℕ → Rng → Vector3 × Rng
  | 0, r => (Vector3.zero, r)
  | fuel + 1, r =>
    let t := (random_point_on_sphere r).1
    let r1 := (random_point_on_sphere r).2
    let t1 : Vector3 := ⟨t.1, t.2.1, t.2.2⟩
    let cross := t1.cross v
    let len := cross.length
    if 1e-6 < len then (cross.smul (1 / len), r1)
    else find_perpendicular_axis v fuel r1

noncomputable def ppbTryContact (particles : List Sphere) (radius : ℝ) (pos : Vector3) :
    List Sphere → Option Vector3
  | [] => none
  | q :: rest =>
    let dist := pos.distance_to q.center
    let contact_dist := radius + q.radius
    if dist ≤ contact_dist * 1.01 then
      let to_p := (q.center.sub pos).normalize
      let contact_pos := q.center.sub (to_p.smul contact_dist)
      if particles.any fun other =>
          decide (contact_pos.distance_to other.center < radius + other.radius - 1e-6) then
        ppbTryContact particles radius pos rest
      else some contact_pos
    else ppbTryContact particles radius pos rest

noncomputable def ppbMarch (particles : List Sphere) (radius : ℝ) (dir : Vector3)
    (step : ℝ) : ℕ → Vector3 → Option Vector3
  | 0, _ => none
  | fuel + 1, pos =>
    match ppbTryContact particles radius pos particles with
    | some c => some c
    | none => ppbMarch particles radius dir step fuel (pos.add (dir.smul step))

noncomputable def ppbAttempts (particles : List Sphere) (radius launch_dist : ℝ) :
    ℕ → Rng → Option Vector3 × Rng
  | 0, r => (none, r)
  | fuel + 1, r =>
    let d := (random_point_on_sphere r).1
    let r1 := (random_point_on_sphere r).2
    let dir : Vector3 := ⟨-d.1, -d.2.1, -d.2.2⟩
    let start := (⟨d.1, d.2.1, d.2.2⟩ : Vector3).smul launch_dist
    let step := radius * 0.5
    match ppbMarch particles radius dir step (Int.toNat ⌊launch_dist * 4 / step⌋) start with
    | some c => (some c, r1)
    | none => ppbAttempts particles radius launch_dist fuel r1

noncomputable def place_particle_ballistic (particles : List Sphere) (radius : ℝ)
    (r : Rng) : Option Vector3 × Rng :=
  if particles.isEmpty then (some Vector3.zero, r)
  else
    let max_dist := (particles.map fun q => q.center.length + q.radius).foldl max 0
    let launch_dist := max_dist + radius * 5
    ppbAttempts particles radius launch_dist 1000 r

noncomputable def tnRotations (particles : List Sphere) (la_plus : List ℕ)
    (cb : Vector3) (cb_norm alpha gamma new_radius : ℝ) (axisFuel : ℕ) :
    ℕ → Rng → Option Vector3 × Rng
  | 0, r => (none, r)
  | fuel + 1, r =>
    let cb_unit := cb.smul (1 / cb_norm)
    let ax := find_perpendicular_axis cb_unit axisFuel r
    let rotation_axis := ax.1
    let r1 := ax.2
    let ca_dir := rotate_vector cb_unit rotation_axis alpha
    let beta := 2 * Real.pi * (r1.genU).1
    let r2 := (r1.genU).2
    let ca_final := rotate_vector ca_dir cb_unit beta
    let ca := ca_final.smul gamma
    let has_overlap := la_plus.any fun i =>
      decide (ca.distance_to (particles.getD i ⟨Vector3.zero, 0⟩).center <
        new_radius + (particles.getD i ⟨Vector3.zero, 0⟩).radius - 1e-6)
    if has_overlap then
      tnRotations particles la_plus cb cb_norm alpha gamma new_radius axisFuel fuel r2
    else
      if particles.any fun q =>
          decide (ca.distance_to q.center < new_radius + q.radius - 1e-6) then
        tnRotations particles la_plus cb cb_norm alpha gamma new_radius axisFuel fuel r2
      else (some ca, r2)

noncomputable def tnPlaceLoop (p : TunableParams) (particles : List Sphere)
    (gamma new_radius : ℝ) (axisFuel : ℕ) : ℕ → List ℕ → Rng → Option Vector3 × Rng
  | 0, _, r => (none, r)
  | fuel + 1, lb, r =>
    if lb.isEmpty then (none, r)
    else
      let a := (r.genIdx).1
      let r1 := (r.genIdx).2
      let ref_idx := lb.getD (a % lb.length) 0
      let ref_particle := particles.getD ref_idx ⟨Vector3.zero, 0⟩
      let cb := ref_particle.center
      let rb := ref_particle.radius
      let cb_norm := cb.length
      if cb_norm < 1e-10 then
        tnPlaceLoop p particles gamma new_radius axisFuel fuel
          (lb.filter fun x => decide (x ≠ ref_idx)) r1
      else
        let cos_alpha := (gamma ^ 2 + cb_norm ^ 2 - (rb + new_radius) ^ 2) /
          (2 * gamma * cb_norm)
        if 1 < |cos_alpha| then
          tnPlaceLoop p particles gamma new_radius axisFuel fuel
            (lb.filter fun x => decide (x ≠ ref_idx)) r1
        else
          let alpha := Real.arccos cos_alpha
          let la_plus := lb.filter fun i =>
            decide (i ≠ ref_idx) &&
              decide ((particles.getD i ⟨Vector3.zero, 0⟩).center.distance_to cb <
                2 * (rb + (particles.getD i ⟨Vector3.zero, 0⟩).radius))
          match tnRotations particles la_plus cb cb_norm alpha gamma new_radius axisFuel
              p.max_rotations r1 with
          | (some ca, r2) => (some ca, r2)
          | (none, r2) =>
            tnPlaceLoop p particles gamma new_radius axisFuel fuel
              (lb.filter fun x => decide (x ≠ ref_idx)) r2

structure TnState where
  particles : List Sphere
  distances : List ℝ
  rg_evolution : List ℝ
  n_values : List ℕ
  rng : Rng

noncomputable def tnBody (p : TunableParams) (axisFuel : ℕ) (s : TnState) (np : ℕ) :
    TnState :=
  let np_f : ℝ := np
  let np_minus_1 : ℝ := ((np - 1 : ℕ) : ℝ)
  let rp := p.mean_radius
  let kf := p.target_kf
  let df := p.target_df
  let constante : ℝ := 3 / 5
  let gamma1 := (np_f ^ 2 / np_minus_1) * ((np_f / kf) ^ (2 / df) - constante)
  let gamma2 := np_f * ((np_minus_1 / kf) ^ (2 / df) - constante)
  let gamma3 := (np_f / np_minus_1) * ((1 / kf) ^ (2 / df) - constante)
  let gamma4_sq := gamma1 - gamma2 - gamma3
  if gamma4_sq ≤ 0 then
    let rr := p.random_radius s.rng
    match place_particle_ballistic s.particles rr.1 rr.2 with
    | (some pos, r1) =>
      { s with particles := s.particles ++ [⟨pos, rr.1⟩],
               distances := s.distances ++ [pos.length], rng := r1 }
    | (none, r1) => { s with rng := r1 }
  else
    let gamma := rp * Real.sqrt gamma4_sq
    let rr := p.random_radius s.rng
    let new_radius := rr.1
    let la_minus := (List.range s.particles.length).filter fun i =>
      decide (gamma - 2 * rp < s.distances.getD i 0)
    if la_minus.isEmpty then
      match place_particle_ballistic s.particles new_radius rr.2 with
      | (some pos, r1) =>
        { s with particles := s.particles ++ [⟨pos, new_radius⟩],
                 distances := s.distances ++ [pos.length], rng := r1 }
      | (none, r1) => { s with rng := r1 }
    else
      let pl := tnPlaceLoop p s.particles gamma new_radius axisFuel la_minus.length
        la_minus rr.2
      let afterPlace : List Sphere × List ℝ × Rng :=
        match pl with
        | (some ca, r2) =>
          (s.particles ++ [(⟨ca, new_radius⟩ : Sphere)], s.distances ++ [ca.length], r2)
        | (none, r2) =>
          match place_particle_ballistic s.particles new_radius r2 with
          | (some pos, r3) =>
            (s.particles ++ [(⟨pos, new_radius⟩ : Sphere)],
             s.distances ++ [pos.length], r3)
          | (none, r3) => (s.particles, s.distances, r3)
      let particles1 := afterPlace.1
      let distances1 := afterPlace.2.1
      let r4 := afterPlace.2.2
      let com := calculate_center_of_mass particles1
      let particles2 := particles1.map fun q => { q with center := q.center.sub com }
      let distances2 := (List.range distances1.length).map fun i =>
        if i < particles2.length then (particles2.getD i ⟨Vector3.zero, 0⟩).center.length
        else distances1.getD i 0
      let distances3 := if distances2.length < particles2.length then
          distances2 ++ [(particles2.getLast?.getD ⟨Vector3.zero, 0⟩).center.length]
        else distances2
      if np % 10 = 0 ∨ np = p.n_particles then
        let rg := calculate_radius_of_gyration (particles2.map Sphere.center)
          (particles2.map Sphere.radius)
        { particles := particles2, distances := distances3,
          rg_evolution := s.rg_evolution ++ [rg], n_values := s.n_values ++ [np],
          rng := r4 }
      else
        { particles := particles2, distances := distances3,
          rg_evolution := s.rg_evolution, n_values := s.n_values, rng := r4 }

noncomputable def tnInit (p : TunableParams) (r : Rng) : TnState :=
  let rr1 := p.random_radius r
  let r1v := rr1.1
  let rr2 := p.random_radius rr1.2
  let r2v := rr2.1
  let d := (random_point_on_sphere rr2.2).1
  let r3 := (random_point_on_sphere rr2.2).2
  let dir : Vector3 := ⟨d.1, d.2.1, d.2.2⟩
  let pos2 := dir.smul (r1v + r2v)
  let particles0 : List Sphere := [⟨Vector3.zero, r1v⟩, ⟨pos2, r2v⟩]
  let com := calculate_center_of_mass particles0
  let particles1 := particles0.map fun q => { q with center := q.center.sub com }
  let distances := particles1.map fun q => q.center.distance_to Vector3.zero
  { particles := particles1, distances := distances, rg_evolution := [], n_values := [],
    rng := r3 }

noncomputable def tnLoop (p : TunableParams) (axisFuel : ℕ) (s : TnState) : TnState :=
  (List.range' 3 (p.n_particles - 2)).foldl (tnBody p axisFuel) s

noncomputable def run_tunable_internal (ofSeed : ℕ → RandomSource)
    (eig : InertiaMatrix → EigResult) (axisFuel : ℕ) (p : TunableParams) (seed : ℕ) :
    SimulationResult :=
  let final := tnLoop p axisFuel (tnInit p (create_rng ofSeed seed))
  let rp := p.mean_radius
  let coords := final.particles.map Sphere.center
  let radii := final.particles.map Sphere.radius
  let fd := calculate_fractal_dimension_from_evolution final.n_values final.rg_evolution rp
  let porosity := calculate_porosity coords radii
  let coordination := calculate_coordination coords radii (rp * 0.1)
  let inertia := calculate_inertia_tensor eig coords radii
  let coord_mean := (coordination.map fun c => (c : ℝ)).sum /
    (max coordination.length 1 : ℕ)
  let coord_std := if 1 < coordination.length then
      Real.sqrt ((coordination.map fun c => ((c : ℝ) - coord_mean) ^ 2).sum /
        (coordination.length : ℝ))
    else 0
  { coordinates := coords, radii := radii, rg_evolution := final.rg_evolution,
    fractal_dimension := fd.1, fractal_dimension_std := 0.05, prefactor := fd.2.1,
    porosity := porosity, coordination_mean := coord_mean, coordination_std := coord_std,
    anisotropy := inertia.anisotropy, asphericity := inertia.asphericity,
    acylindricity := inertia.acylindricity, principal_moments := inertia.principal_moments,
    principal_axes := inertia.principal_axes, seed := seed }

/-! Tunable CC (src/simulation/tunable_cc.rs): cluster-cluster merging at
power-law distances.  The main loop (`while clusters.len() > 1 &&
iterations < max_iterations` with `max_iterations = n_particles * 1000`,
lines 751-753) is embedded as a fuel recursion covering the cap.  The rand
crate's `choose_multiple` and `shuffle` are external primitives, modelled
as deterministic consumers of the index stream (two distinct index draws,
and a Fisher-Yates pass).  `run_tunable_cc` always invokes the internal
runner with no Python context (line 712), under which the TunablePc seed
strategy produces groups of monomers (lines 575-581); the embedding fixes
that py = None path. -/

inductive SeedStrategy where
  | Monomers
  | TunablePc (cluster_size : ℕ)
  | Custom (sizes : List ℕ)

structure TunableCcParams where
  n_particles : ℕ
  target_df : ℝ
  target_kf : ℝ
  radius_min : ℝ
  radius_max : ℝ
  seed_strategy : SeedStrategy
  max_rotation_attempts : ℕ
  max_particle_selection_attempts : ℕ
  sintering : SinteringDistribution

noncomputable def TunableCcParams.mean_radius (p : TunableCcParams) : ℝ :=
  (p.radius_min + p.radius_max) / 2

noncomputable def TunableCcParams.random_radius (p : TunableCcParams) (r : Rng) :
    ℝ × Rng :=
  if 1e-10 < |p.radius_max - p.radius_min| then
    let u := (r.genU).1
    (p.radius_min + u * (p.radius_max - p.radius_min), (r.genU).2)
  else (p.radius_min, r)

noncomputable def TccCluster.new (s : Sphere) : TccCluster :=
  { particles := [s], center_of_mass := s.center, geometric_center := s.center,
    bounding_radius := s.radius, radius_of_gyration := s.radius * Real.sqrt (3 / 5) }

noncomputable def TccCluster.from_particles (particles : List Sphere) : TccCluster :=
  TccCluster.update_properties
    { particles := particles, center_of_mass := Vector3.zero,
      geometric_center := Vector3.zero, bounding_radius := 0, radius_of_gyration := 0 }

noncomputable def TccCluster.get_candidate_particles (c : TccCluster)
    (required_distance other_bounding_radius : ℝ) : List ℕ :=
  (List.range c.particles.length).filter fun idx =>
    let particle := c.particles.getD idx ⟨Vector3.zero, 0⟩
    let dist_to_com := particle.center.distance_to c.center_of_mass
    decide (required_distance - other_bounding_radius ≤ dist_to_com + particle.radius)

noncomputable def calculate_com_distance (n_po n_po1 n_po2 : ℕ) (kf df rp : ℝ) :
    Option ℝ :=
  let n_po_f : ℝ := n_po
  let n_po1_f : ℝ := n_po1
  let n_po2_f : ℝ := n_po2
  let constante : ℝ := 3 / 5
  let term1 := (n_po_f / kf) ^ (2 / df) - constante
  let term2_factor := (n_po1_f / kf) ^ (2 / df)
  let term2 := n_po_f * term2_factor * (1 / n_po2_f + 1 / n_po1_f)
  let distance_sq := rp ^ 2 * term1 - rp ^ 2 * term2
  if distance_sq ≤ 0 then
    let rg_target := rp * (n_po_f / kf) ^ (1 / df)
    let rg1 := rp * (n_po1_f / kf) ^ (1 / df)
    let rg2 := rp * (n_po2_f / kf) ^ (1 / df)
    let approx_dist := Real.sqrt |rg_target ^ 2 - rg1 ^ 2 - rg2 ^ 2|
    if 0 < approx_dist then some (max approx_dist (rp * 2)) else none
  else some (Real.sqrt distance_sq)

noncomputable def check_overlap (c1 c2 : TccCluster) (sintering_coeff : ℝ) : Bool :=
  let dist := c1.center_of_mass.distance_to c2.center_of_mass
  let bounding_contact := sintered_contact_distance c1.bounding_radius c2.bounding_radius
    sintering_coeff
  if bounding_contact + 1e-6 < dist then false
  else c1.particles.any fun p1 => c2.particles.any fun p2 =>
    decide (p1.center.distance_to p2.center <
      sintered_contact_distance p1.radius p2.radius sintering_coeff - 1e-6)

def listSwap (l : List ℕ) (i j : ℕ) : List ℕ :=
  match l[i]?, l[j]? with
  | some a, some b => (l.set i b).set j a
  | _, _ => l

noncomputable def shuffleGo : ℕ → List ℕ → Rng → List ℕ × Rng
  | 0, l, r => (l, r)
  | 1, l, r => (l, r)
  | n + 2, l, r =>
    let j := (r.genIdx).1 % (n + 2)
    let r1 := (r.genIdx).2
    shuffleGo (n + 1) (listSwap l (n + 1) j) r1

noncomputable def shuffleList (l : List ℕ) (r : Rng) : List ℕ × Rng :=
  shuffleGo l.length l r

noncomputable def select_contact_particles (c1 c2 : TccCluster) (la1 la2 : List ℕ)
    (required_distance : ℝ) (r : Rng) : Option (ℕ × ℕ) × Rng :=
  let s1 := shuffleList la1 r
  let s2 := shuffleList la2 s1.2
  (s1.1.findSome? fun m1 =>
    s2.1.findSome? fun m2 =>
      let p1 := c1.particles.getD m1 ⟨Vector3.zero, 0⟩
      let p2 := c2.particles.getD m2 ⟨Vector3.zero, 0⟩
      let d1 := p1.center.distance_to c1.center_of_mass
      let d2 := p2.center.distance_to c2.center_of_mass
      let contact_dist := p1.radius + p2.radius
      if required_distance - 1e-6 ≤ d1 + d2 + contact_dist then
        if |d1 - d2| ≤ required_distance + contact_dist then some (m1, m2) else none
      else none,
   s2.2)

noncomputable def position_clusters_for_contact (c1 c2 : TccCluster) (m1 m2 : ℕ)
    (required_distance sintering_coeff : ℝ) (r : Rng) : (TccCluster × Bool) × Rng :=
  let p1 := c1.particles.getD m1 ⟨Vector3.zero, 0⟩
  let p2_original := c2.particles.getD m2 ⟨Vector3.zero, 0⟩
  let contact_dist := sintered_contact_distance p1.radius p2_original.radius
    sintering_coeff
  let d := (random_point_on_sphere r).1
  let r1 := (random_point_on_sphere r).2
  let base_direction : Vector3 := ⟨d.1, d.2.1, d.2.2⟩
  let target_com2_pos := c1.center_of_mass.add (base_direction.smul required_distance)
  let translation := target_com2_pos.sub c2.center_of_mass
  let c2a := c2.translate translation
  let current_p2_pos := (c2a.particles.getD m2 ⟨Vector3.zero, 0⟩).center
  let p1_to_p2_dir := (current_p2_pos.sub p1.center).normalize
  let target_p2_pos := p1.center.add (p1_to_p2_dir.smul contact_dist)
  let target_r_cm2_to_p2 := target_p2_pos.sub c2a.center_of_mass
  let r_cm2_to_p2_current := (c2a.particles.getD m2 ⟨Vector3.zero, 0⟩).center.sub
    c2a.center_of_mass
  let cross := r_cm2_to_p2_current.cross target_r_cm2_to_p2
  let cross_len := cross.length
  let c2b :=
    if 1e-10 < cross_len then
      let rotation_axis := cross.normalize
      let dt := r_cm2_to_p2_current.dot target_r_cm2_to_p2
      let angle := Real.arccos (min (max
        (dt / (r_cm2_to_p2_current.length * target_r_cm2_to_p2.length)) (-1)) 1)
      c2a.rotate_around_axis rotation_axis angle c2a.center_of_mass
    else c2a
  let final_dist := (c2b.particles.getD m2 ⟨Vector3.zero, 0⟩).center.distance_to p1.center
  ((c2b, decide (|final_dist - contact_dist| < contact_dist * 0.1)), r1)

noncomputable def roAttempts (c1 c2 : TccCluster) (rotation_axis : Vector3)
    (sintering_coeff : ℝ) : ℕ → Rng → (TccCluster × Bool) × Rng
  | 0, r => ((c2, false), r)
  | fuel + 1, r =>
    let angle := 2 * Real.pi * (r.genU).1
    let r1 := (r.genU).2
    let test_cluster := c2.rotate_around_axis rotation_axis angle c2.center_of_mass
    if check_overlap c1 test_cluster sintering_coeff then
      roAttempts c1 c2 rotation_axis sintering_coeff fuel r1
    else ((test_cluster, true), r1)

noncomputable def resolve_overlap_by_rotation (c1 c2 : TccCluster) (m2 : ℕ)
    (max_attempts : ℕ) (sintering_coeff : ℝ) (r : Rng) : (TccCluster × Bool) × Rng :=
  let p2_pos := (c2.particles.getD m2 ⟨Vector3.zero, 0⟩).center
  let rotation_axis := (p2_pos.sub c2.center_of_mass).normalize
  roAttempts c1 c2 rotation_axis sintering_coeff max_attempts r

/-- Least particle radius of a cluster.  The source folds `f64::min` from
`f64::INFINITY`; on a nonempty list this is the minimum, and for the empty
list (clusters always hold at least one particle) the ray-march count that
consumes it is 0 under either convention. -/
noncomputable def minRadius : List Sphere → ℝ
  | [] => 0
  | s :: rest => rest.foldl (fun m q => min m q.radius) s.radius

noncomputable def mbContact (c1 c2 : TccCluster) (sintering_coeff : ℝ) : Bool :=
  c1.particles.any fun p1 => c2.particles.any fun p2 =>
    let dist := p1.center.distance_to p2.center
    let contact_dist := sintered_contact_distance p1.radius p2.radius sintering_coeff
    decide (dist ≤ contact_dist * 1.01) && decide (contact_dist * 0.9 ≤ dist) &&
      ! check_overlap c1 c2 sintering_coeff

noncomputable def mbMarch (c1 : TccCluster) (sintering_coeff : ℝ) (trajectory : Vector3)
    (step : ℝ) : ℕ → TccCluster → TccCluster × Bool
  | 0, c2 => (c2, false)
  | fuel + 1, c2 =>
    if mbContact c1 c2 sintering_coeff then (c2, true)
    else mbMarch c1 sintering_coeff trajectory step fuel (c2.translate (trajectory.smul step))

noncomputable def mbAttempts (c1 : TccCluster) (launch_dist sintering_coeff : ℝ) :
    ℕ → TccCluster → Rng → (TccCluster × Bool) × Rng
  | 0, c2, r => ((c2, false), r)
  | fuel + 1, c2, r =>
    let d := (random_point_on_sphere r).1
    let r1 := (random_point_on_sphere r).2
    let dir : Vector3 := ⟨d.1, d.2.1, d.2.2⟩
    let start_pos := c1.center_of_mass.add (dir.smul launch_dist)
    let c2a := c2.translate (start_pos.sub c2.center_of_mass)
    let trajectory := (c1.center_of_mass.sub c2a.center_of_mass).normalize
    let step := minRadius c2a.particles * 0.5
    match mbMarch c1 sintering_coeff trajectory step
        (Int.toNat ⌊launch_dist * 4 / step⌋) c2a with
    | (c2b, true) => ((c2b, true), r1)
    | (c2b, false) => mbAttempts c1 launch_dist sintering_coeff fuel c2b r1

noncomputable def merge_ballistic (c1 c2 : TccCluster) (sintering_coeff : ℝ) (r : Rng) :
    (TccCluster × Bool) × Rng :=
  let launch_dist := c1.bounding_radius + c2.bounding_radius * 3
  mbAttempts c1 launch_dist sintering_coeff 100 c2 r

noncomputable def tccMonomers (p : TunableCcParams) : ℕ → Rng → List TccCluster × Rng
  | 0, r => ([], r)
  | n + 1, r =>
    let rd := p.random_radius r
    let rest := tccMonomers p n rd.2
    (TccCluster.new ⟨Vector3.zero, rd.1⟩ :: rest.1, rest.2)

noncomputable def tccDrawParticles (p : TunableCcParams) : ℕ → Rng → List Sphere × Rng
  | 0, r => ([], r)
  | n + 1, r =>
    let rd := p.random_radius r
    let rest := tccDrawParticles p n rd.2
    ((⟨Vector3.zero, rd.1⟩ : Sphere) :: rest.1, rest.2)

noncomputable def tccTunablePcGo (p : TunableCcParams) (cs n_clusters : ℕ) :
    List ℕ → ℕ → Rng → List TccCluster × Rng
  | [], _, r => ([], r)
  | i :: rest, particles_used, r =>
    let size := if i = n_clusters - 1 ∧ p.n_particles % cs ≠ 0
      then p.n_particles - particles_used
      else min cs (p.n_particles - particles_used)
    if size = 0 then ([], r)
    else
      let grp := tccMonomers p size r
      let tail := tccTunablePcGo p cs n_clusters rest (particles_used + size) grp.2
      (grp.1 ++ tail.1, tail.2)

noncomputable def tccCustomSeeds (p : TunableCcParams) :
    List ℕ → Rng → List TccCluster × Rng
  | [], r => ([], r)
  | size :: rest, r =>
    let ps := tccDrawParticles p size r
    let tail := tccCustomSeeds p rest ps.2
    (TccCluster.from_particles ps.1 :: tail.1, tail.2)

noncomputable def init_seed_clusters (p : TunableCcParams) (r : Rng) :
    List TccCluster × Rng :=
  match p.seed_strategy with
  | .Monomers => tccMonomers p p.n_particles r
  | .TunablePc cs =>
    let n_clusters := (p.n_particles + cs - 1) / cs
    tccTunablePcGo p cs n_clusters (List.range n_clusters) 0 r
  | .Custom sizes => tccCustomSeeds p sizes r

noncomputable def tccSpread (spread : ℝ) : List TccCluster → Rng → List TccCluster × Rng
  | [], r => ([], r)
  | c :: rest, r =>
    let d := (random_point_on_sphere r).1
    let r1 := (random_point_on_sphere r).2
    let u := (r1.genU).1
    let r2 := (r1.genU).2
    let offset := (((⟨d.1, d.2.1, d.2.2⟩ : Vector3).smul spread)).smul u
    let tail := tccSpread spread rest r2
    (c.translate offset :: tail.1, tail.2)

noncomputable def tccMaxByParticles (clusters : List TccCluster) : Option TccCluster :=
  clusters.foldl
    (fun best c =>
      match best with
      | none => some c
      | some b => if b.particles.length ≤ c.particles.length then some c else best)
    none

noncomputable def tccTryPosition (impacted : TccCluster) (la1 la2 : List ℕ)
    (required_distance sintering_coeff : ℝ) (max_rot : ℕ) :
    ℕ → TccCluster → Rng → (TccCluster × Bool) × Rng
  | 0, cur, r => ((cur, false), r)
  | fuel + 1, cur, r =>
    let sel := select_contact_particles impacted cur la1 la2 required_distance r
    match sel.1 with
    | some (m1, m2) =>
      let posd := position_clusters_for_contact impacted cur m1 m2 required_distance
        sintering_coeff sel.2
      let cur1 := posd.1.1
      if posd.1.2 then
        if check_overlap impacted cur1 sintering_coeff then
          let res := resolve_overlap_by_rotation impacted cur1 m2 max_rot
            sintering_coeff posd.2
          if res.1.2 then ((res.1.1, true), res.2)
          else tccTryPosition impacted la1 la2 required_distance sintering_coeff max_rot
            fuel cur1 res.2
        else ((cur1, true), posd.2)
      else tccTryPosition impacted la1 la2 required_distance sintering_coeff max_rot
        fuel cur1 posd.2
    | none => tccTryPosition impacted la1 la2 required_distance sintering_coeff max_rot
        fuel cur sel.2

noncomputable def tccBody (p : TunableCcParams) (clusters : List TccCluster)
    (rg_evolution : List ℝ) (n_values : List ℕ) (rng : Rng) :
    List TccCluster × List ℝ × List ℕ × Rng :=
  let len := clusters.length
  let a := (rng.genIdx).1
  let r1 := (rng.genIdx).2
  let b := (r1.genIdx).1
  let r2 := (r1.genIdx).2
  let idx1 := a % len
  let off := b % (len - 1)
  let idx2 := if idx1 ≤ off then off + 1 else off
  let dflt := TccCluster.new ⟨Vector3.zero, 0⟩
  let roles :=
    if (clusters.getD idx2 dflt).particles.length ≤
        (clusters.getD idx1 dflt).particles.length
    then (idx1, idx2) else (idx2, idx1)
  let impacted_idx := roles.1
  let impactor_idx := roles.2
  let impacted := clusters.getD impacted_idx dflt
  let impactor := clusters.getD impactor_idx dflt
  let sc := p.sintering.sample r2
  let sintering_coeff := sc.1
  let r3 := sc.2
  let n_po := impacted.particles.length + impactor.particles.length
  let n_po1 := impacted.particles.length
  let n_po2 := impactor.particles.length
  let required_distance :=
    match calculate_com_distance n_po n_po1 n_po2 p.target_kf p.target_df
        p.mean_radius with
    | some d => d
    | none => (impacted.bounding_radius + impactor.bounding_radius) * 0.5
  let tryRes : (TccCluster × Bool) × Rng :=
    if required_distance ≤ impacted.bounding_radius + impactor.bounding_radius then
      let la1 := impacted.get_candidate_particles required_distance
        impactor.bounding_radius
      let la2 := impactor.get_candidate_particles required_distance
        impacted.bounding_radius
      if ¬ la1.isEmpty ∧ ¬ la2.isEmpty then
        tccTryPosition impacted la1 la2 required_distance sintering_coeff
          p.max_rotation_attempts p.max_particle_selection_attempts impactor r3
      else ((impactor, false), r3)
    else ((impactor, false), r3)
  let afterFallback : (TccCluster × Bool) × Rng :=
    if tryRes.1.2 then tryRes
    else merge_ballistic impacted tryRes.1.1 sintering_coeff tryRes.2
  let impactorFinal := afterFallback.1.1
  let merge_success := afterFallback.1.2
  let rF := afterFallback.2
  if merge_success then
    let higher_idx := if impacted_idx < impactor_idx then impactor_idx else impacted_idx
    let lower_idx := if impacted_idx < impactor_idx then impacted_idx else impactor_idx
    let clusters1 := (clusters.eraseIdx higher_idx).eraseIdx lower_idx
    let merged := impacted.merge_with impactorFinal
    let clusters2 := clusters1 ++ [merged]
    match tccMaxByParticles clusters2 with
    | some largest =>
      (clusters2, rg_evolution ++ [largest.radius_of_gyration],
       n_values ++ [largest.particles.length], rF)
    | none => (clusters2, rg_evolution, n_values, rF)
  else (clusters, rg_evolution, n_values, rF)

structure TccState where
  clusters : List TccCluster
  rg_evolution : List ℝ
  n_values : List ℕ
  iterations : ℕ
  rng : Rng

noncomputable def tccStep (p : TunableCcParams) (s : TccState) : TccState :=
  let t := tccBody p s.clusters s.rg_evolution s.n_values s.rng
  { clusters := t.1, rg_evolution := t.2.1, n_values := t.2.2.1,
    iterations := s.iterations + 1, rng := t.2.2.2 }

def tccGuard (p : TunableCcParams) (s : TccState) : Prop :=
  1 < s.clusters.length ∧ s.iterations < p.n_particles * 1000

instance (p : TunableCcParams) (s : TccState) : Decidable (tccGuard p s) :=
  inferInstanceAs (Decidable (_ ∧ _))

noncomputable def tccLoopGo (p : TunableCcParams) : ℕ → TccState → TccState
  | 0, s => s
  | fuel + 1, s => if tccGuard p s then tccLoopGo p fuel (tccStep p s) else s

noncomputable def tccLoop (p : TunableCcParams) (s : TccState) : TccState :=
  tccLoopGo p (p.n_particles * 1000 + 1) s

noncomputable def run_tunable_cc_internal (ofSeed : ℕ → RandomSource)
    (eig : InertiaMatrix → EigResult) (p : TunableCcParams) (seed : ℕ) :
    SimulationResult :=
  let rng := create_rng ofSeed seed
  let rp := p.mean_radius
  let ini := init_seed_clusters p rng
  let spread := ((ini.1.length : ℝ) ^ ((1:ℝ) / 3)) * rp * 5
  let spr := tccSpread spread ini.1 ini.2
  let final := tccLoop p ⟨spr.1, [], [], 0, spr.2⟩
  let final_particles := match final.clusters with
    | [] => ([] : List Sphere)
    | c :: _ => c.particles
  let coords := final_particles.map Sphere.center
  let radii := final_particles.map Sphere.radius
  let fd := calculate_fractal_dimension_from_evolution final.n_values final.rg_evolution rp
  let porosity := calculate_porosity coords radii
  let coordination := calculate_coordination coords radii (rp * 0.1)
  let inertia := calculate_inertia_tensor eig coords radii
  let coord_mean := (coordination.map fun c => (c : ℝ)).sum /
    (max coordination.length 1 : ℕ)
  let coord_std := if 1 < coordination.length then
      Real.sqrt ((coordination.map fun c => ((c : ℝ) - coord_mean) ^ 2).sum /
        (coordination.length : ℝ))
    else 0
  { coordinates := coords, radii := radii, rg_evolution := final.rg_evolution,
    fractal_dimension := fd.1, fractal_dimension_std := 0.05, prefactor := fd.2.1,
    porosity := porosity, coordination_mean := coord_mean, coordination_std := coord_std,
    anisotropy := inertia.anisotropy, asphericity := inertia.asphericity,
    acylindricity := inertia.acylindricity, principal_moments := inertia.principal_moments,
    principal_axes := inertia.principal_axes, seed := seed }

noncomputable def constSrc : RandomSource := ⟨fun _ => 1 / 2, fun _ => 0, fun _ => 0⟩

noncomputable def c2Params : DlaParams :=
  { n_particles := 2, sticking_probability := 0, lattice_size := 200, seed_radius := 1,
    max_walk_steps := 1000000, launch_distance_factor := 2, kill_distance_factor := 3 }

noncomputable def c2BccParams : BallisticCcParams :=
  { n_particles := 2, sticking_probability := 1, radius_min := 1, radius_max := 1,
    max_collision_attempts := 100 }

noncomputable def c2BccState : BccState :=
  { clusters := [], rg_evolution := [], n_values := [], iterations := 0,
    rng := ⟨constSrc, 0⟩ }

noncomputable def c2BallisticParams : BallisticParams :=
  { n_particles := 2, sticking_probability := 0, radius_min := 1, radius_max := 1,
    launch_distance_factor := 2, max_ray_steps := 10000,
    sintering := SinteringDistribution.Fixed 1 }

noncomputable def c2TccParams : TunableCcParams :=
  { n_particles := 2, target_df := 1.8, target_kf := 1.3, radius_min := 1,
    radius_max := 1, seed_strategy := SeedStrategy.Monomers, max_rotation_attempts := 50,
    max_particle_selection_attempts := 25, sintering := SinteringDistribution.Fixed 1 }

noncomputable def c2TccState : TccState :=
  { clusters := [], rg_evolution := [], n_values := [], iterations := 0,
    rng := ⟨constSrc, 0⟩ }

noncomputable def c2CcaParams : CcaParams :=
  { n_particles := 2, sticking_probability := 1, radius_min := 1, radius_max := 1,
    box_size := 20, max_iterations := 100, step_size_factor := 2,
    single_agglomerate := false }

noncomputable def c2CcaState : CcaState :=
  { clusters := [], rg_evolution := [], n_values := [], iteration := 0,
    rng := ⟨constSrc, 0⟩ }

/-! ## Supporting lemmas -/

lemma cg_single (c : Vector3) (r : ℝ) (hr : 0 < r) :
    calculate_center_of_gravity [c] [r] = c := by
  have hm : (0:ℝ) < massOf r := by simp only [massOf]; positivity
  cases c with
  | mk cx cy cz =>
    simp only [calculate_center_of_gravity, List.zip_cons_cons, List.zip_nil_right,
      List.map_cons, List.map_nil, List.sum_cons, List.sum_nil, add_zero]
    rw [if_pos hm]
    simp only [Vector3.smul]
    have hm' : massOf r ≠ 0 := ne_of_gt hm
    congr 1 <;> field_simp

lemma dist_self (a : Vector3) : a.distance_to a = 0 := by
  simp [Vector3.distance_to, Vector3.sub, Vector3.length, Vector3.lengthSquared]

lemma rg_single (c : Vector3) (r : ℝ) (hr : 0 < r) :
    calculate_radius_of_gyration [c] [r] = r * Real.sqrt (3 / 5) := by
  have hm : (0:ℝ) < massOf r := by simp only [massOf]; positivity
  simp only [calculate_radius_of_gyration, List.isEmpty_cons, cg_single c r hr,
    List.zip_cons_cons, List.zip_nil_right, List.map_cons, List.map_nil,
    List.sum_cons, List.sum_nil, add_zero, dist_self, mul_zero, Bool.false_eq_true,
    if_false]
  rw [if_pos hm]
  have hm' : massOf r ≠ 0 := ne_of_gt hm
  have : (3 / 5 * (massOf r * r * r)) / massOf r = 3 / 5 * (r * r) := by
    field_simp [massOf]; ring
  rw [this]
  rw [show (3:ℝ) / 5 * (r * r) = (3/5) * r^2 by ring, Real.sqrt_mul (by norm_num),
    Real.sqrt_sq hr.le]
  ring

lemma fd_clamp_bounds (nv : List ℕ) (rgv : List ℝ) :
    1 ≤ (calculate_fractal_dimension nv rgv).1 ∧
    (calculate_fractal_dimension nv rgv).1 ≤ 3 ∧
    0.1 ≤ (calculate_fractal_dimension nv rgv).2.1 := by
  simp only [calculate_fractal_dimension]
  split_ifs <;> refine ⟨?_, ?_, ?_⟩ <;> norm_num

lemma evo_clamp_bounds (nv : List ℕ) (rgv : List ℝ) (rp : ℝ) :
    1 ≤ (calculate_fractal_dimension_from_evolution nv rgv rp).1 ∧
    (calculate_fractal_dimension_from_evolution nv rgv rp).1 ≤ 3 ∧
    0.1 ≤ (calculate_fractal_dimension_from_evolution nv rgv rp).2.1 ∧
    (calculate_fractal_dimension_from_evolution nv rgv rp).2.1 ≤ 10 := by
  simp only [calculate_fractal_dimension_from_evolution]
  split_ifs <;> refine ⟨?_, ?_, ?_, ?_⟩ <;> norm_num

lemma fdValidData_c3 :
    fdValidData ([2, 4, 8].zip [(32:ℝ), 64, 128]) =
      [(Real.log 2, Real.log 32), (Real.log 4, Real.log 64), (Real.log 8, Real.log 128)] := by
  norm_num [fdValidData, List.zip_cons_cons]

lemma c3_kf_value :
    (calculate_fractal_dimension [2, 4, 8] [32, 64, 128]).2.1 = 16 := by
  have hL : Real.log 2 ≠ 0 := ne_of_gt (Real.log_pos (by norm_num))
  have h4 : Real.log (4:ℝ) = 2 * Real.log 2 := by
    rw [show (4:ℝ) = 2 ^ (2:ℕ) by norm_num, Real.log_pow]; push_cast; ring
  have h8 : Real.log (8:ℝ) = 3 * Real.log 2 := by
    rw [show (8:ℝ) = 2 ^ (3:ℕ) by norm_num, Real.log_pow]; push_cast; ring
  have h32 : Real.log (32:ℝ) = 5 * Real.log 2 := by
    rw [show (32:ℝ) = 2 ^ (5:ℕ) by norm_num, Real.log_pow]; push_cast; ring
  have h64 : Real.log (64:ℝ) = 6 * Real.log 2 := by
    rw [show (64:ℝ) = 2 ^ (6:ℕ) by norm_num, Real.log_pow]; push_cast; ring
  have h128 : Real.log (128:ℝ) = 7 * Real.log 2 := by
    rw [show (128:ℝ) = 2 ^ (7:ℕ) by norm_num, Real.log_pow]; push_cast; ring
  simp only [calculate_fractal_dimension]
  rw [if_neg (by norm_num)]
  rw [fdValidData_c3]
  rw [if_neg (by norm_num)]
  simp only [List.map_cons, List.map_nil, List.sum_cons, List.sum_nil, List.length_cons,
    List.length_nil, h4, h8, h32, h64, h128]
  set L := Real.log 2 with hLdef
  have hnum : ((0 + 1 + 1 + 1 : ℕ):ℝ) * (L * (5 * L) + (2 * L * (6 * L) + (3 * L * (7 * L) + 0))) -
      (L + (2 * L + (3 * L + 0))) * (5 * L + (6 * L + (7 * L + 0))) = 6 * L ^ 2 := by
    push_cast; ring
  have hden : ((0 + 1 + 1 + 1 : ℕ):ℝ) * (L * L + (2 * L * (2 * L) + (3 * L * (3 * L) + 0))) -
      (L + (2 * L + (3 * L + 0))) * (L + (2 * L + (3 * L + 0))) = 6 * L ^ 2 := by
    push_cast; ring
  rw [hnum, hden]
  have hslope : (6 * L ^ 2) / (6 * L ^ 2) = 1 :=
    div_self (mul_ne_zero (by norm_num) (pow_ne_zero 2 hL))
  rw [hslope]
  rw [if_pos (by rw [abs_one]; norm_num)]
  have h16 : Real.log (16:ℝ) = 4 * L := by
    rw [show (16:ℝ) = 2 ^ (4:ℕ) by norm_num, Real.log_pow]; push_cast; ring
  have harg : (5 * L + (6 * L + (7 * L + 0)) - 1 * (L + (2 * L + (3 * L + 0)))) /
      ((0 + 1 + 1 + 1 : ℕ):ℝ) * (1 / 1) = 4 * L := by
    push_cast; ring
  rw [harg, ← h16, Real.exp_log (by norm_num)]
  rw [sup_eq_left.mpr (by norm_num)]

/-! ## Claim theorems -/

/-- Claim C3 (corrected): for every input, both fitting procedures clamp the
returned fractal dimension Df into [1, 3].  The Tunable-family fit
`calculate_fractal_dimension_from_evolution` clamps kf into [0.1, 10], but the
DLA/CCA/Ballistic-PC fit `calculate_fractal_dimension` only clamps kf from
below at 0.1 (`kf.max(0.1)` with no `.min(10.0)`), so its kf can exceed 10. -/
theorem C3_clamp_amended (nv : List ℕ) (rgv : List ℝ) (rp : ℝ) :
    (1 ≤ (calculate_fractal_dimension nv rgv).1 ∧
      (calculate_fractal_dimension nv rgv).1 ≤ 3 ∧
      0.1 ≤ (calculate_fractal_dimension nv rgv).2.1) ∧
    (1 ≤ (calculate_fractal_dimension_from_evolution nv rgv rp).1 ∧
      (calculate_fractal_dimension_from_evolution nv rgv rp).1 ≤ 3 ∧
      0.1 ≤ (calculate_fractal_dimension_from_evolution nv rgv rp).2.1 ∧
      (calculate_fractal_dimension_from_evolution nv rgv rp).2.1 ≤ 10) :=
  ⟨fd_clamp_bounds nv rgv, evo_clamp_bounds nv rgv rp⟩

/-- Claim C3, counterexample to the claim as stated: on the series
N = [2, 4, 8], Rg = [32, 64, 128] the fit `calculate_fractal_dimension`
returns the prefactor kf = 16, which lies outside the claimed range
[0.1, 10]. -/
theorem C3_counterexample :
    10 < (calculate_fractal_dimension [2, 4, 8] [32, 64, 128]).2.1 := by
  rw [c3_kf_value]; norm_num

/-- Claim C4 (confirmed): with fewer than three samples or mismatched-length
series, both fitting procedures return the neutral default (Df, kf, R2) =
(2, 1, 0); likewise when fewer than three samples survive the validity filter
(N > 1 and Rg above the positivity threshold: 0 for
`calculate_fractal_dimension`, rp * 0.1 for the Tunable-family fit).  Both
embeddings are total functions, so no error is ever raised. -/
theorem C4_default_on_insufficient_data (nv : List ℕ) (rgv : List ℝ) (rp : ℝ) :
    (nv.length < 3 ∨ nv.length ≠ rgv.length →
      calculate_fractal_dimension nv rgv = (2, 1, 0) ∧
      calculate_fractal_dimension_from_evolution nv rgv rp = (2, 1, 0)) ∧
    ((fdValidData (nv.zip rgv)).length < 3 →
      calculate_fractal_dimension nv rgv = (2, 1, 0)) ∧
    ((evoValidData rp (nv.zip rgv)).length < 3 →
      calculate_fractal_dimension_from_evolution nv rgv rp = (2, 1, 0)) := by
  refine ⟨fun h => ⟨?_, ?_⟩, fun h => ?_, fun h => ?_⟩
  · simp only [calculate_fractal_dimension]; rw [if_pos h]
  · simp only [calculate_fractal_dimension_from_evolution]; rw [if_pos h]
  · simp only [calculate_fractal_dimension]
    split_ifs <;> rfl
  · simp only [calculate_fractal_dimension_from_evolution]
    split_ifs <;> rfl

/-- Witness for C4 at a concrete input: a single-sample series. -/
theorem C4_default_on_insufficient_data_witness :
    (([5] : List ℕ).length < 3 ∨ ([5] : List ℕ).length ≠ ([(1:ℝ)] : List ℝ).length) ∧
    ((fdValidData (([5] : List ℕ).zip [(1:ℝ)])).length < 3) ∧
    ((evoValidData 1 (([5] : List ℕ).zip [(1:ℝ)])).length < 3) ∧
    calculate_fractal_dimension [5] [1] = (2, 1, 0) ∧
    calculate_fractal_dimension_from_evolution [5] [1] 1 = (2, 1, 0) :=
  ⟨Or.inl (by norm_num),
   by norm_num [fdValidData, List.zip_cons_cons],
   by norm_num [evoValidData, List.zip_cons_cons],
   ((C4_default_on_insufficient_data [5] [1] 1).1 (Or.inl (by norm_num))).1,
   ((C4_default_on_insufficient_data [5] [1] 1).1 (Or.inl (by norm_num))).2⟩

/-- Claim C9 (confirmed): for a single particle of radius r > 0,
`calculate_radius_of_gyration` returns exactly r * sqrt(3/5). -/
theorem C9_rg_single_particle (c : Vector3) (r : ℝ) (hr : 0 < r) :
    calculate_radius_of_gyration [c] [r] = r * Real.sqrt (3 / 5) :=
  rg_single c r hr

/-- Witness for C9 at a concrete input: one particle of radius 1 at the
origin. -/
theorem C9_rg_single_particle_witness :
    (0:ℝ) < 1 ∧
    calculate_radius_of_gyration [Vector3.zero] [1] = 1 * Real.sqrt (3 / 5) :=
  ⟨by norm_num, C9_rg_single_particle Vector3.zero 1 (by norm_num)⟩


lemma sortedIdx_sorted (v : Fin 3 → ℝ) :
    v (sortedIdx v).1 ≤ v (sortedIdx v).2.1 ∧ v (sortedIdx v).2.1 ≤ v (sortedIdx v).2.2 := by
  unfold sortedIdx
  split_ifs <;> exact ⟨by linarith, by linarith⟩

/-! ## Claim theorems, part 2 -/

/-- Claim C8 (confirmed): in single-agglomerate mode `run_cca` uses an
effective box size equal to the minimum of the user-specified box size and
the optimal box size at the 3% target volume fraction (so the user value can
only shrink the effective box relative to the optimal one, never grow it);
in multi-agglomerate mode the user box size is used unchanged. -/
theorem C8_effective_box_size (p : CcaParams) :
    (p.single_agglomerate = true →
      ccaEffectiveBoxSize p =
        min p.box_size (optimal_box_size p.n_particles p.mean_radius 0.03) ∧
      ccaEffectiveBoxSize p ≤ optimal_box_size p.n_particles p.mean_radius 0.03 ∧
      ccaEffectiveBoxSize p ≤ p.box_size) ∧
    (p.single_agglomerate = false → ccaEffectiveBoxSize p = p.box_size) := by
  refine ⟨fun h => ?_, fun h => ?_⟩ <;>
    simp [ccaEffectiveBoxSize, h, min_le_left, min_le_right]

/-- Witness for C8 at a concrete parameter record. -/
theorem C8_effective_box_size_witness :
    c8Params.single_agglomerate = true ∧
    ccaEffectiveBoxSize c8Params =
      min c8Params.box_size
        (optimal_box_size c8Params.n_particles c8Params.mean_radius 0.03) ∧
    ccaEffectiveBoxSize c8Params ≤
      optimal_box_size c8Params.n_particles c8Params.mean_radius 0.03 :=
  ⟨rfl, ((C8_effective_box_size c8Params).1 rfl).1,
    ((C8_effective_box_size c8Params).1 rfl).2.1⟩

/-- Claim C10 (confirmed): `calculate_inertia_tensor` on fewer than two
particles returns the fixed default descriptor (principal moments (1,1,1),
identity axes, anisotropy 1, asphericity 0, acylindricity 0); on two or more
particles the returned principal moments are sorted ascending and each is at
least 1e-10 (hence positive), and the anisotropy is the ratio of the largest
to the smallest returned moment, whose denominator is therefore nonzero. -/
theorem C10_inertia_tensor_default_and_sorted (eig : InertiaMatrix → EigResult)
    (coordinates : List Vector3) (radii : List ℝ) :
    (coordinates.length < 2 →
      calculate_inertia_tensor eig coordinates radii = defaultInertiaResult) ∧
    (2 ≤ coordinates.length →
      (calculate_inertia_tensor eig coordinates radii).principal_moments.1 ≤
        (calculate_inertia_tensor eig coordinates radii).principal_moments.2.1 ∧
      (calculate_inertia_tensor eig coordinates radii).principal_moments.2.1 ≤
        (calculate_inertia_tensor eig coordinates radii).principal_moments.2.2 ∧
      1e-10 ≤ (calculate_inertia_tensor eig coordinates radii).principal_moments.1 ∧
      0 < (calculate_inertia_tensor eig coordinates radii).principal_moments.1 ∧
      (calculate_inertia_tensor eig coordinates radii).anisotropy =
        (calculate_inertia_tensor eig coordinates radii).principal_moments.2.2 /
          (calculate_inertia_tensor eig coordinates radii).principal_moments.1) := by
  constructor
  · intro h
    simp only [calculate_inertia_tensor]
    rw [if_pos h]
  · intro h
    have hn : ¬ coordinates.length < 2 := by omega
    simp only [calculate_inertia_tensor]
    rw [if_neg hn]
    dsimp only
    exact ⟨max_le_max (sortedIdx_sorted _).1 le_rfl,
      max_le_max (sortedIdx_sorted _).2 le_rfl, le_max_right _ _,
      lt_of_lt_of_le (by norm_num) (le_max_right _ _), rfl⟩

/-- Witness for C10 at concrete inputs: the empty input takes the default
branch, a two-particle input takes the sorted-clamped branch. -/
theorem C10_inertia_tensor_default_and_sorted_witness :
    (([] : List Vector3).length < 2 ∧
      calculate_inertia_tensor (fun _ => ⟨fun _ => 5, fun _ _ => 0⟩) [] [] =
        defaultInertiaResult) ∧
    (2 ≤ ([Vector3.zero, Vector3.zero] : List Vector3).length ∧
      0 < (calculate_inertia_tensor (fun _ => ⟨fun _ => 5, fun _ _ => 0⟩)
        [Vector3.zero, Vector3.zero] [1, 1]).principal_moments.1) :=
  ⟨⟨by norm_num,
    (C10_inertia_tensor_default_and_sorted _ [] []).1 (by norm_num)⟩,
   ⟨by norm_num,
    ((C10_inertia_tensor_default_and_sorted (fun _ => ⟨fun _ => 5, fun _ _ => 0⟩)
      [Vector3.zero, Vector3.zero] [1, 1]).2 (by norm_num)).2.2.2.1⟩⟩


lemma cellsGet_cellsInsert_same (key : ℤ × ℤ × ℤ) (i : ℕ)
    (cells : List ((ℤ × ℤ × ℤ) × List ℕ)) :
    cellsGet key (cellsInsert key i cells) =
      some ((cellsGet key cells).getD [] ++ [i]) := by
  induction cells with
  | nil => simp [cellsGet, cellsInsert]
  | cons p rest ih =>
    obtain ⟨k, l⟩ := p
    by_cases hk : k = key <;> simp [cellsGet, cellsInsert, hk, ih]

lemma mem_foldl_append {β : Type} (f : β → List ℕ) (L : List β) (acc : List ℕ) (j : ℕ) :
    (j ∈ L.foldl (fun a d => a ++ f d) acc) ↔ j ∈ acc ∨ ∃ d ∈ L, j ∈ f d := by
  induction L generalizing acc with
  | nil => simp
  | cons b L ih =>
    simp only [List.foldl_cons, ih, List.mem_append, List.mem_cons]
    constructor
    · rintro ((hj | hj) | ⟨d, hd, hj⟩)
      · exact Or.inl hj
      · exact Or.inr ⟨b, Or.inl rfl, hj⟩
      · exact Or.inr ⟨d, Or.inr hd, hj⟩
    · rintro (hj | ⟨d, (rfl | hd), hj⟩)
      · exact Or.inl (Or.inl hj)
      · exact Or.inl (Or.inr hj)
      · exact Or.inr ⟨d, hd, hj⟩

lemma mem_query_iff (h : SpatialHash) (q : Sphere) (j : ℕ) :
    (j ∈ h.query_potential_collisions q) ↔
      ∃ d ∈ neighborOffsets,
        j ∈ (cellsGet ((h.cell_coords q.center).1 + d.1,
              (h.cell_coords q.center).2.1 + d.2.1,
              (h.cell_coords q.center).2.2 + d.2.2) h.cells).getD [] := by
  simp only [SpatialHash.query_potential_collisions]
  rw [mem_foldl_append]
  simp

lemma floor_div_near {a b c : ℝ} (hc : 0 < c) (h : |a - b| ≤ c) :
    Int.floor (b / c) - 1 ≤ Int.floor (a / c) ∧
      Int.floor (a / c) ≤ Int.floor (b / c) + 1 := by
  rw [abs_le] at h
  have hlow : b / c - 1 ≤ a / c := by
    rw [show b / c - 1 = (b - c) / c by field_simp]
    rw [div_le_div_right hc]
    linarith [h.1]
  have hhigh : a / c ≤ b / c + 1 := by
    rw [show b / c + 1 = (b + c) / c by field_simp]
    rw [div_le_div_right hc]
    linarith [h.2]
  constructor
  · have := Int.floor_le_floor hlow
    rwa [show b / c - 1 = b / c - ((1:ℤ):ℝ) by push_cast; ring, Int.floor_sub_int] at this
  · have := Int.floor_le_floor hhigh
    rwa [show b / c + 1 = b / c + ((1:ℤ):ℝ) by push_cast; ring, Int.floor_add_int] at this

lemma mem_neighborOffsets {d : ℤ × ℤ × ℤ}
    (h1 : -1 ≤ d.1 ∧ d.1 ≤ 1) (h2 : -1 ≤ d.2.1 ∧ d.2.1 ≤ 1)
    (h3 : -1 ≤ d.2.2 ∧ d.2.2 ≤ 1) : d ∈ neighborOffsets := by
  obtain ⟨dx, dy, dz⟩ := d
  simp only at h1 h2 h3
  simp only [neighborOffsets, List.mem_flatMap, List.mem_map, List.mem_cons]
  refine ⟨dx, by omega, dy, by omega, dz, by omega, rfl⟩

lemma abs_comp_le_dist (a b : Vector3) :
    |a.x - b.x| ≤ a.distance_to b ∧ |a.y - b.y| ≤ a.distance_to b ∧
      |a.z - b.z| ≤ a.distance_to b := by
  have hx : |a.x - b.x| = Real.sqrt ((a.x - b.x) ^ 2) := (Real.sqrt_sq_eq_abs _).symm
  have hy : |a.y - b.y| = Real.sqrt ((a.y - b.y) ^ 2) := (Real.sqrt_sq_eq_abs _).symm
  have hz : |a.z - b.z| = Real.sqrt ((a.z - b.z) ^ 2) := (Real.sqrt_sq_eq_abs _).symm
  unfold Vector3.distance_to Vector3.length Vector3.lengthSquared Vector3.sub
  refine ⟨?_, ?_, ?_⟩
  · rw [hx]; apply Real.sqrt_le_sqrt; dsimp only
    nlinarith [sq_nonneg (a.y - b.y), sq_nonneg (a.z - b.z)]
  · rw [hy]; apply Real.sqrt_le_sqrt; dsimp only
    nlinarith [sq_nonneg (a.x - b.x), sq_nonneg (a.z - b.z)]
  · rw [hz]; apply Real.sqrt_le_sqrt; dsimp only
    nlinarith [sq_nonneg (a.x - b.x), sq_nonneg (a.y - b.y)]

/-! ## Claim theorems, part 3 -/

/-- Claim C5 (confirmed): `insert` places the index in the cell keyed by the
per-axis floor of center / cell_size (appended to that cell's list);
`query_potential_collisions` returns exactly the union of the 27 cell lists
of the 3x3x3 neighborhood of the query sphere's cell; consequently an index
whose insertion-time center differs from the query center by at most
cell_size along every axis is in the query result, and in particular any
index whose center is within cell_size Euclidean distance of the query
center (so with cell_size at least the largest contact distance the result
is a superset of all touching particles). -/
theorem C5_spatial_hash_query (h : SpatialHash) (i : ℕ) (s q : Sphere)
    (hc : 0 < h.cell_size) :
    (cellsGet (h.cell_coords s.center) (h.insert i s).cells =
      some ((cellsGet (h.cell_coords s.center) h.cells).getD [] ++ [i])) ∧
    (∀ j, (j ∈ h.query_potential_collisions q) ↔
      ∃ d ∈ neighborOffsets,
        j ∈ (cellsGet ((h.cell_coords q.center).1 + d.1,
              (h.cell_coords q.center).2.1 + d.2.1,
              (h.cell_coords q.center).2.2 + d.2.2) h.cells).getD []) ∧
    (|s.center.x - q.center.x| ≤ h.cell_size →
     |s.center.y - q.center.y| ≤ h.cell_size →
     |s.center.z - q.center.z| ≤ h.cell_size →
      i ∈ (h.insert i s).query_potential_collisions q) ∧
    (s.center.distance_to q.center ≤ h.cell_size →
      i ∈ (h.insert i s).query_potential_collisions q) := by
  have hins : ∀ (hx : |s.center.x - q.center.x| ≤ h.cell_size)
      (hy : |s.center.y - q.center.y| ≤ h.cell_size)
      (hz : |s.center.z - q.center.z| ≤ h.cell_size),
      i ∈ (h.insert i s).query_potential_collisions q := by
    intro hx hy hz
    have hfx := floor_div_near hc hx
    have hfy := floor_div_near hc hy
    have hfz := floor_div_near hc hz
    have hcells : (h.insert i s).cell_coords q.center = h.cell_coords q.center := rfl
    rw [mem_query_iff]
    refine ⟨((h.cell_coords s.center).1 - (h.cell_coords q.center).1,
            (h.cell_coords s.center).2.1 - (h.cell_coords q.center).2.1,
            (h.cell_coords s.center).2.2 - (h.cell_coords q.center).2.2),
           mem_neighborOffsets ⟨?_, ?_⟩ ⟨?_, ?_⟩ ⟨?_, ?_⟩, ?_⟩
    · simp only [SpatialHash.cell_coords]; simp only [SpatialHash.cell_coords] at hfx; omega
    · simp only [SpatialHash.cell_coords]; simp only [SpatialHash.cell_coords] at hfx; omega
    · simp only [SpatialHash.cell_coords]; simp only [SpatialHash.cell_coords] at hfy; omega
    · simp only [SpatialHash.cell_coords]; simp only [SpatialHash.cell_coords] at hfy; omega
    · simp only [SpatialHash.cell_coords]; simp only [SpatialHash.cell_coords] at hfz; omega
    · simp only [SpatialHash.cell_coords]; simp only [SpatialHash.cell_coords] at hfz; omega
    · have hkey : ((h.insert i s).cell_coords q.center).1 +
          ((h.cell_coords s.center).1 - (h.cell_coords q.center).1) =
            (h.cell_coords s.center).1 := by rw [hcells]; ring
      rw [hcells]
      have : ((h.cell_coords q.center).1 +
            ((h.cell_coords s.center).1 - (h.cell_coords q.center).1),
          (h.cell_coords q.center).2.1 +
            ((h.cell_coords s.center).2.1 - (h.cell_coords q.center).2.1),
          (h.cell_coords q.center).2.2 +
            ((h.cell_coords s.center).2.2 - (h.cell_coords q.center).2.2)) =
          h.cell_coords s.center := by
        obtain ⟨c1, c2, c3⟩ := h.cell_coords s.center
        obtain ⟨d1, d2, d3⟩ := h.cell_coords q.center
        simp only [Prod.mk.injEq]
        omega
      rw [this]
      have hsame : (h.insert i s).cell_coords s.center = h.cell_coords s.center := rfl
      have := cellsGet_cellsInsert_same (h.cell_coords s.center) i h.cells
      simp only [SpatialHash.insert] at *
      rw [this]
      simp
  refine ⟨?_, fun j => mem_query_iff h q j, hins, fun hd => ?_⟩
  · have := cellsGet_cellsInsert_same (h.cell_coords s.center) i h.cells
    simp only [SpatialHash.insert]
    exact this
  · have hcomp := abs_comp_le_dist s.center q.center
    exact hins (le_trans hcomp.1 hd) (le_trans hcomp.2.1 hd) (le_trans hcomp.2.2 hd)

/-- Witness for C5 at concrete inputs: cell size 1, query sphere at the
origin, inserted sphere at x = 1/2. -/
theorem C5_spatial_hash_query_witness :
    (0:ℝ) < c5Hash.cell_size ∧
    |(Vector3.mk (1/2) 0 0).x - Vector3.zero.x| ≤ c5Hash.cell_size ∧
    |(Vector3.mk (1/2) 0 0).y - Vector3.zero.y| ≤ c5Hash.cell_size ∧
    |(Vector3.mk (1/2) 0 0).z - Vector3.zero.z| ≤ c5Hash.cell_size ∧
    7 ∈ (c5Hash.insert 7 ⟨⟨1/2, 0, 0⟩, 1⟩).query_potential_collisions ⟨Vector3.zero, 1⟩ :=
  ⟨by norm_num [c5Hash], by norm_num [c5Hash, Vector3.zero, abs_le], by norm_num [c5Hash, Vector3.zero, abs_le],
   by norm_num [c5Hash, Vector3.zero, abs_le],
   (C5_spatial_hash_query c5Hash 7 ⟨⟨1/2, 0, 0⟩, 1⟩ ⟨Vector3.zero, 1⟩
      (by norm_num [c5Hash])).2.2.1
     (by norm_num [c5Hash, Vector3.zero, abs_le]) (by norm_num [c5Hash, Vector3.zero, abs_le])
     (by norm_num [c5Hash, Vector3.zero, abs_le])⟩


lemma distSq_quadratic (p q : Sphere) (trajectory : Vector3) (t : ℝ) :
    ((p.center.sub (q.center.add (trajectory.smul t))).lengthSquared) =
      (trajectory.dot trajectory) * (t * t) +
        (-2 * (p.center.sub q.center).dot trajectory) * t +
        (p.center.sub q.center).dot (p.center.sub q.center) := by
  simp only [Vector3.sub, Vector3.add, Vector3.smul, Vector3.dot, Vector3.lengthSquared]
  ring

lemma pairCollisionT_sound (trajectory : Vector3) (p q : Sphere)
    (ha : 0 < trajectory.dot trajectory) (t : ℝ)
    (h : pairCollisionT trajectory p q = some t) :
    1e-10 < t ∧
      (trajectory.dot trajectory) * (t * t) +
        (-2 * (p.center.sub q.center).dot trajectory) * t +
        ((p.center.sub q.center).dot (p.center.sub q.center) -
          (p.radius + q.radius) * (p.radius + q.radius)) = 0 := by
  set a := trajectory.dot trajectory with hadef
  set b := -2 * (p.center.sub q.center).dot trajectory with hbdef
  set c := (p.center.sub q.center).dot (p.center.sub q.center) -
    (p.radius + q.radius) * (p.radius + q.radius) with hcdef
  have ha' : a ≠ 0 := ne_of_gt ha
  simp only [pairCollisionT, ← hadef, ← hbdef, ← hcdef] at h
  by_cases hdisc : (0:ℝ) ≤ b * b - 4 * a * c
  · rw [if_pos hdisc] at h
    have hsq : discrim a b c =
        Real.sqrt (b * b - 4 * a * c) * Real.sqrt (b * b - 4 * a * c) := by
      rw [Real.mul_self_sqrt hdisc, discrim]; ring
    by_cases h1 : (1e-10:ℝ) < (-b - Real.sqrt (b * b - 4 * a * c)) / (2 * a)
    · rw [if_pos h1] at h
      obtain rfl : (-b - Real.sqrt (b * b - 4 * a * c)) / (2 * a) = t := by
        injection h
      exact ⟨h1, (quadratic_eq_zero_iff ha' hsq _).2 (Or.inr rfl)⟩
    · rw [if_neg h1] at h
      by_cases h2 : (1e-10:ℝ) < (-b + Real.sqrt (b * b - 4 * a * c)) / (2 * a)
      · rw [if_pos h2] at h
        obtain rfl : (-b + Real.sqrt (b * b - 4 * a * c)) / (2 * a) = t := by
          injection h
        exact ⟨h2, (quadratic_eq_zero_iff ha' hsq _).2 (Or.inl rfl)⟩
      · rw [if_neg h2] at h
        exact absurd h (by simp)
  · rw [if_neg hdisc] at h
    exact absurd h (by simp)

lemma pairCollisionT_minimal (trajectory : Vector3) (p q : Sphere)
    (ha : 0 < trajectory.dot trajectory) (tr : ℝ)
    (hroot : (trajectory.dot trajectory) * (tr * tr) +
        (-2 * (p.center.sub q.center).dot trajectory) * tr +
        ((p.center.sub q.center).dot (p.center.sub q.center) -
          (p.radius + q.radius) * (p.radius + q.radius)) = 0)
    (htr : 1e-10 < tr) :
    ∃ t, pairCollisionT trajectory p q = some t ∧ t ≤ tr := by
  set a := trajectory.dot trajectory with hadef
  set b := -2 * (p.center.sub q.center).dot trajectory with hbdef
  set c := (p.center.sub q.center).dot (p.center.sub q.center) -
    (p.radius + q.radius) * (p.radius + q.radius) with hcdef
  have ha' : a ≠ 0 := ne_of_gt ha
  have hdisc : (0:ℝ) ≤ b * b - 4 * a * c := by
    by_contra hneg
    push_neg at hneg
    have : ∀ s : ℝ, discrim a b c ≠ s ^ 2 := by
      intro s
      rw [discrim]
      intro he
      nlinarith [sq_nonneg s]
    exact quadratic_ne_zero_of_discrim_ne_sq this tr hroot
  have hsq : discrim a b c =
      Real.sqrt (b * b - 4 * a * c) * Real.sqrt (b * b - 4 * a * c) := by
    rw [Real.mul_self_sqrt hdisc, discrim]; ring
  set s := Real.sqrt (b * b - 4 * a * c) with hsdef
  have hs0 : 0 ≤ s := Real.sqrt_nonneg _
  have hcase := (quadratic_eq_zero_iff ha' hsq tr).1 hroot
  have h2a : (0:ℝ) < 2 * a := by linarith
  have ht12 : (-b - s) / (2 * a) ≤ (-b + s) / (2 * a) := by gcongr <;> linarith
  simp only [pairCollisionT, ← hadef, ← hbdef, ← hcdef, ← hsdef, if_pos hdisc]
  by_cases h1 : (1e-10:ℝ) < (-b - s) / (2 * a)
  · rw [if_pos h1]
    refine ⟨_, rfl, ?_⟩
    rcases hcase with h | h
    · rw [h]; exact ht12
    · rw [h]
  · rw [if_neg h1]
    have htr2 : tr = (-b + s) / (2 * a) := by
      rcases hcase with h | h
      · exact h
      · exact absurd (h ▸ htr) h1
    rw [if_pos (htr2 ▸ htr)]
    exact ⟨_, rfl, le_of_eq htr2.symm⟩

lemma foldl_nested_eq_flat {A B C : Type} (L1 : List A) (L2 : List B)
    (f : C → A × B → C) (b : C) :
    L1.foldl (fun acc x => L2.foldl (fun a y => f a (x, y)) acc) b =
      (L1.flatMap fun x => L2.map fun y => (x, y)).foldl f b := by
  induction L1 generalizing b with
  | nil => rfl
  | cons x L1 ih =>
    simp only [List.foldl_cons, List.flatMap_cons, List.foldl_append, List.foldl_map]
    exact ih _

lemma quadratic_iff_contact (p q : Sphere) (trajectory : Vector3) (t : ℝ) :
    ((trajectory.dot trajectory) * (t * t) +
        (-2 * (p.center.sub q.center).dot trajectory) * t +
        ((p.center.sub q.center).dot (p.center.sub q.center) -
          (p.radius + q.radius) * (p.radius + q.radius)) = 0) ↔
      ((p.center.sub (q.center.add (trajectory.smul t))).lengthSquared) =
        (p.radius + q.radius) * (p.radius + q.radius) := by
  rw [distSq_quadratic]
  constructor <;> intro h <;> linarith

lemma fcStep_some_le (trajectory : Vector3) (max_distance : ℝ)
    (b : Option (ℝ × ℕ × ℕ)) (pr : (ℕ × Sphere) × (ℕ × Sphere))
    (tb : ℝ) (ib jb : ℕ) (hb : b = some (tb, ib, jb)) :
    ∃ tr ir jr, fcStep trajectory max_distance b pr = some (tr, ir, jr) ∧ tr ≤ tb := by
  subst hb
  unfold fcStep
  rcases hpc : pairCollisionT trajectory pr.1.2 pr.2.2 with _ | t
  · exact ⟨tb, ib, jb, rfl, le_rfl⟩
  · by_cases hmax : t ≤ max_distance
    · by_cases hlt : t < tb
      · refine ⟨t, pr.1.1, pr.2.1, ?_, hlt.le⟩
        simp [hmax, hlt]
      · refine ⟨tb, ib, jb, ?_, le_rfl⟩
        simp [hmax, hlt]
    · refine ⟨tb, ib, jb, ?_, le_rfl⟩
      simp [hmax]

lemma foldl_fcStep_some_le (trajectory : Vector3) (max_distance : ℝ)
    (L : List ((ℕ × Sphere) × (ℕ × Sphere)))
    (b : Option (ℝ × ℕ × ℕ)) (tb : ℝ) (ib jb : ℕ) (hb : b = some (tb, ib, jb)) :
    ∃ tr ir jr,
      L.foldl (fcStep trajectory max_distance) b = some (tr, ir, jr) ∧ tr ≤ tb := by
  induction L generalizing b tb ib jb with
  | nil => exact ⟨tb, ib, jb, hb, le_rfl⟩
  | cons pr L ih =>
    obtain ⟨t1, i1, j1, hstep, hle⟩ := fcStep_some_le trajectory max_distance b pr tb ib jb hb
    obtain ⟨tr, ir, jr, hres, hle2⟩ := ih _ t1 i1 j1 hstep
    exact ⟨tr, ir, jr, hres, le_trans hle2 hle⟩

lemma fcStep_sound (self other : List Sphere) (trajectory : Vector3) (max_distance : ℝ)
    (ha : 0 < trajectory.dot trajectory)
    (b : Option (ℝ × ℕ × ℕ)) (pr : (ℕ × Sphere) × (ℕ × Sphere))
    (hpr : enumOk self other pr) (hb : fcSound self other trajectory max_distance b) :
    fcSound self other trajectory max_distance (fcStep trajectory max_distance b pr) := by
  unfold fcStep
  rcases hpc : pairCollisionT trajectory pr.1.2 pr.2.2 with _ | t
  · exact hb
  · have hsound := pairCollisionT_sound trajectory pr.1.2 pr.2.2 ha t hpc
    have hroot : IsContactRoot self other trajectory t pr.1.1 pr.2.1 :=
      ⟨pr.1.2, pr.2.2, hpr.1, hpr.2, (quadratic_iff_contact _ _ _ _).1 hsound.2⟩
    dsimp only
    by_cases hmax : t ≤ max_distance
    · rcases hb with rfl | ⟨tb, ib, jb, rfl, hvb⟩
      · simp only [if_pos hmax]
        exact Or.inr ⟨t, pr.1.1, pr.2.1, rfl, hsound.1, hmax, hroot⟩
      · simp only [if_pos hmax]
        by_cases hlt : t < tb
        · rw [if_pos hlt]
          exact Or.inr ⟨t, pr.1.1, pr.2.1, rfl, hsound.1, hmax, hroot⟩
        · rw [if_neg hlt]
          exact Or.inr ⟨tb, ib, jb, rfl, hvb⟩
    · simp only [if_neg hmax]
      rcases hb with rfl | ⟨tb, ib, jb, rfl, hvb⟩
      · exact Or.inl rfl
      · exact Or.inr ⟨tb, ib, jb, rfl, hvb⟩

lemma foldl_fcStep_sound (self other : List Sphere) (trajectory : Vector3)
    (max_distance : ℝ) (ha : 0 < trajectory.dot trajectory)
    (L : List ((ℕ × Sphere) × (ℕ × Sphere))) (b : Option (ℝ × ℕ × ℕ))
    (hL : ∀ pr ∈ L, enumOk self other pr)
    (hb : fcSound self other trajectory max_distance b) :
    fcSound self other trajectory max_distance
      (L.foldl (fcStep trajectory max_distance) b) := by
  induction L generalizing b with
  | nil => exact hb
  | cons pr L ih =>
    exact ih _ (fun x hx => hL x (List.mem_cons_of_mem _ hx))
      (fcStep_sound self other trajectory max_distance ha b pr
        (hL pr (List.mem_cons_self _ _)) hb)

lemma foldl_fcStep_minimal (trajectory : Vector3) (max_distance : ℝ)
    (ha : 0 < trajectory.dot trajectory)
    (L : List ((ℕ × Sphere) × (ℕ × Sphere))) (b : Option (ℝ × ℕ × ℕ))
    (pr : (ℕ × Sphere) × (ℕ × Sphere)) (hpr : pr ∈ L) (tr : ℝ)
    (hroot : ((pr.1.2.center.sub (pr.2.2.center.add (trajectory.smul tr))).lengthSquared) =
      (pr.1.2.radius + pr.2.2.radius) * (pr.1.2.radius + pr.2.2.radius))
    (htr : 1e-10 < tr) (hmax : tr ≤ max_distance) :
    ∃ t i j, L.foldl (fcStep trajectory max_distance) b = some (t, i, j) ∧ t ≤ tr := by
  induction L generalizing b with
  | nil => exact absurd hpr (List.not_mem_nil _)
  | cons pr0 L ih =>
    rcases List.mem_cons.1 hpr with rfl | hmem
    · obtain ⟨tc, hpc, htc⟩ := pairCollisionT_minimal trajectory pr.1.2 pr.2.2 ha tr
        ((quadratic_iff_contact _ _ _ _).2 hroot) htr
      have hcmax : tc ≤ max_distance := le_trans htc hmax
      have hstep : ∃ tb ib jb,
          fcStep trajectory max_distance b pr = some (tb, ib, jb) ∧ tb ≤ tc := by
        unfold fcStep
        rw [hpc]
        rcases b with _ | ⟨⟨tb, ib, jb⟩⟩
        · exact ⟨tc, pr.1.1, pr.2.1, by simp [hcmax], le_rfl⟩
        · by_cases hlt : tc < tb
          · exact ⟨tc, pr.1.1, pr.2.1, by simp [hcmax, hlt], le_rfl⟩
          · exact ⟨tb, ib, jb, by simp [hcmax, hlt], le_of_not_lt hlt⟩
      obtain ⟨tb, ib, jb, hseq, hble⟩ := hstep
      obtain ⟨t, i, j, hres, hle⟩ :=
        foldl_fcStep_some_le trajectory max_distance L _ tb ib jb hseq
      exact ⟨t, i, j, hres, le_trans hle (le_trans hble htc)⟩
    · exact ih _ hmem

lemma find_collision_with_flat (self other : List Sphere) (trajectory : Vector3)
    (max_distance : ℝ) :
    find_collision_with self other trajectory max_distance =
      (self.enum.flatMap fun ip => other.enum.map fun jp => (ip, jp)).foldl
        (fcStep trajectory max_distance) none := by
  unfold find_collision_with
  exact foldl_nested_eq_flat _ _ _ _

lemma flat_enumOk (self other : List Sphere) :
    ∀ pr ∈ self.enum.flatMap fun ip => other.enum.map fun jp => (ip, jp),
      enumOk self other pr := by
  intro pr hpr
  simp only [List.mem_flatMap, List.mem_map] at hpr
  obtain ⟨ip, hip, jp, hjp, rfl⟩ := hpr
  exact ⟨List.mem_enum_iff_get?.1 hip, List.mem_enum_iff_get?.1 hjp⟩

lemma mem_flat_of_get (self other : List Sphere) (i j : ℕ) (p q : Sphere)
    (hp : self.get? i = some p) (hq : other.get? j = some q) :
    ((i, p), (j, q)) ∈ self.enum.flatMap fun ip => other.enum.map fun jp => (ip, jp) := by
  simp only [List.mem_flatMap, List.mem_map]
  exact ⟨(i, p), List.mem_enum_iff_get?.2 hp, (j, q), List.mem_enum_iff_get?.2 hq, rfl⟩

/-! ## Claim theorems, part 4 -/

/-- Claim C6 (corrected): `find_collision_with` solves the pairwise
quadratic and, whenever it returns some (t, i, j), the trajectory parameter
t exceeds the 1e-10 threshold, does not exceed max_distance, and at t the
two named particles' centers are exactly the sum of their radii apart; the
returned t is moreover minimal among all contact roots exceeding 1e-10 and
within max_distance, over all particle pairs; and None is returned only when
no pair has such a root.  The source thresholds roots at t > 1e-10 rather
than t > 0, which is the one correction to the claim. -/
theorem C6_find_collision_amended (self other : List Sphere) (trajectory : Vector3)
    (max_distance : ℝ) (ha : 0 < trajectory.dot trajectory)
    (hrself : ∀ p ∈ self, 0 ≤ p.radius) (hrother : ∀ p ∈ other, 0 ≤ p.radius) :
    (∀ t i j, find_collision_with self other trajectory max_distance = some (t, i, j) →
      1e-10 < t ∧ t ≤ max_distance ∧
      ∃ p q, self.get? i = some p ∧ other.get? j = some q ∧
        p.center.distance_to (q.center.add (trajectory.smul t)) = p.radius + q.radius) ∧
    (∀ t' i j, IsContactRoot self other trajectory t' i j → 1e-10 < t' →
      t' ≤ max_distance →
      ∃ t i0 j0,
        find_collision_with self other trajectory max_distance = some (t, i0, j0) ∧
        t ≤ t') ∧
    (find_collision_with self other trajectory max_distance = none →
      ∀ t' i j, IsContactRoot self other trajectory t' i j → 1e-10 < t' →
        max_distance < t') := by
  have hmin : ∀ t' i j, IsContactRoot self other trajectory t' i j → 1e-10 < t' →
      t' ≤ max_distance →
      ∃ t i0 j0,
        find_collision_with self other trajectory max_distance = some (t, i0, j0) ∧
        t ≤ t' := by
    intro t' i j hroot htr hmax
    obtain ⟨p, q, hp, hq, hsq⟩ := hroot
    rw [find_collision_with_flat]
    exact foldl_fcStep_minimal trajectory max_distance ha _ none ((i, p), (j, q))
      (mem_flat_of_get self other i j p q hp hq) t' hsq htr hmax
  refine ⟨?_, hmin, ?_⟩
  · intro t i j heq
    have hsound := foldl_fcStep_sound self other trajectory max_distance ha
      (self.enum.flatMap fun ip => other.enum.map fun jp => (ip, jp)) none
      (flat_enumOk self other) (Or.inl rfl)
    rw [find_collision_with_flat] at heq
    rcases hsound with hnone | ⟨t0, i0, j0, hval, ht0, hmax0, hroot0⟩
    · rw [hnone] at heq; exact absurd heq (by simp)
    · rw [hval] at heq
      obtain ⟨rfl, rfl, rfl⟩ : t0 = t ∧ i0 = i ∧ j0 = j := by
        injection heq with h1
        exact ⟨congrArg Prod.fst h1, congrArg Prod.fst (congrArg Prod.snd h1),
          congrArg Prod.snd (congrArg Prod.snd h1)⟩
      obtain ⟨p, q, hp, hq, hsq⟩ := hroot0
      refine ⟨ht0, hmax0, p, q, hp, hq, ?_⟩
      have hrp : 0 ≤ p.radius := hrself p (List.get?_mem hp)
      have hrq : 0 ≤ q.radius := hrother q (List.get?_mem hq)
      rw [Vector3.distance_to, Vector3.length, hsq]
      exact Real.sqrt_mul_self (by linarith)
  · intro hnone t' i j hroot htr
    by_contra hle
    push_neg at hle
    obtain ⟨t, i0, j0, heq, _⟩ := hmin t' i j hroot htr hle
    rw [hnone] at heq
    exact absurd heq (by simp)

lemma c6_pair_eval :
    pairCollisionT ⟨1, 0, 0⟩ ⟨⟨0, 0, 0⟩, 1⟩ ⟨⟨2 - 1e-10, 0, 0⟩, 1⟩ = none := by
  rcases h : pairCollisionT ⟨1, 0, 0⟩ ⟨⟨0, 0, 0⟩, 1⟩ ⟨⟨2 - 1e-10, 0, 0⟩, 1⟩ with _ | t
  · rfl
  · exfalso
    have hs := pairCollisionT_sound ⟨1, 0, 0⟩ ⟨⟨0, 0, 0⟩, 1⟩ ⟨⟨2 - 1e-10, 0, 0⟩, 1⟩
      (by norm_num [Vector3.dot]) t h
    have heps := hs.1
    have hq := hs.2
    norm_num [Vector3.sub, Vector3.dot] at hq
    have hfact : (t - 1e-10) * (t - (-4 + 1e-10)) = 0 := by nlinarith [hq]
    rcases mul_eq_zero.1 hfact with h1 | h2
    · have : t = 1e-10 := by linarith
      rw [this] at heps
      exact absurd heps (by norm_num)
    · have : t = -4 + 1e-10 := by linarith
      rw [this] at heps
      norm_num at heps

/-- Claim C6, counterexample to the claim as stated: with the impactor
particle starting at x = 2 - 1e-10 and moving along +x toward a unit
particle at the origin, the smallest positive contact root is exactly
t = 1e-10 (well within the max distance 10), yet `find_collision_with`
returns None, because the source only accepts roots strictly greater than
1e-10, not all positive roots. -/
theorem C6_counterexample :
    find_collision_with [⟨⟨0, 0, 0⟩, 1⟩] [⟨⟨2 - 1e-10, 0, 0⟩, 1⟩] ⟨1, 0, 0⟩ 10 = none ∧
    IsContactRoot [⟨⟨0, 0, 0⟩, 1⟩] [⟨⟨2 - 1e-10, 0, 0⟩, 1⟩] ⟨1, 0, 0⟩ 1e-10 0 0 ∧
    (0:ℝ) < 1e-10 ∧ (1e-10:ℝ) ≤ 10 := by
  refine ⟨?_, ⟨⟨⟨0, 0, 0⟩, 1⟩, ⟨⟨2 - 1e-10, 0, 0⟩, 1⟩, rfl, rfl, ?_⟩, by norm_num,
    by norm_num⟩
  · rw [find_collision_with_flat]
    have hflat : (([(⟨⟨0, 0, 0⟩, 1⟩ : Sphere)].enum).flatMap fun ip =>
        ([(⟨⟨2 - 1e-10, 0, 0⟩, 1⟩ : Sphere)].enum).map fun jp => (ip, jp)) =
        [((0, (⟨⟨0, 0, 0⟩, 1⟩ : Sphere)), (0, (⟨⟨2 - 1e-10, 0, 0⟩, 1⟩ : Sphere)))] := rfl
    rw [hflat, List.foldl_cons, List.foldl_nil]
    unfold fcStep
    rw [c6_pair_eval]
  · norm_num [Vector3.add, Vector3.smul, Vector3.sub, Vector3.lengthSquared]

/-- Witness for the amended C6 at concrete inputs: impactor at x = -5 moving
along +x toward a unit sphere at the origin first touches at t = 3. -/
theorem C6_find_collision_amended_witness :
    (0:ℝ) < (Vector3.mk 1 0 0).dot (Vector3.mk 1 0 0) ∧
    (∀ p ∈ [(⟨⟨0, 0, 0⟩, 1⟩ : Sphere)], 0 ≤ p.radius) ∧
    (∀ p ∈ [(⟨⟨-5, 0, 0⟩, 1⟩ : Sphere)], 0 ≤ p.radius) ∧
    IsContactRoot [⟨⟨0, 0, 0⟩, 1⟩] [⟨⟨-5, 0, 0⟩, 1⟩] ⟨1, 0, 0⟩ 3 0 0 ∧
    (1e-10:ℝ) < 3 ∧ (3:ℝ) ≤ 10 ∧
    ∃ t i0 j0,
      find_collision_with [⟨⟨0, 0, 0⟩, 1⟩] [⟨⟨-5, 0, 0⟩, 1⟩] ⟨1, 0, 0⟩ 10 =
        some (t, i0, j0) ∧
      t ≤ 3 := by
  have hroot : IsContactRoot [⟨⟨0, 0, 0⟩, 1⟩] [⟨⟨-5, 0, 0⟩, 1⟩] ⟨1, 0, 0⟩ 3 0 0 :=
    ⟨⟨⟨0, 0, 0⟩, 1⟩, ⟨⟨-5, 0, 0⟩, 1⟩, rfl, rfl,
      by norm_num [Vector3.add, Vector3.smul, Vector3.sub, Vector3.lengthSquared]⟩
  refine ⟨by norm_num [Vector3.dot], by simp, by simp, hroot, by norm_num, by norm_num, ?_⟩
  exact (C6_find_collision_amended [⟨⟨0, 0, 0⟩, 1⟩] [⟨⟨-5, 0, 0⟩, 1⟩] ⟨1, 0, 0⟩ 10
    (by norm_num [Vector3.dot]) (by simp) (by simp)).2.1 3 0 0 hroot (by norm_num)
    (by norm_num)

lemma dist_translate (a b delta : Vector3) :
    (a.add delta).distance_to (b.add delta) = a.distance_to b := by
  simp only [Vector3.distance_to, Vector3.length, Vector3.add, Vector3.sub,
    Vector3.lengthSquared]
  ring_nf

lemma sum_map_const_real {α : Type} (l : List α) (r : ℝ) :
    (l.map fun _ => r).sum = (l.length : ℝ) * r := by
  induction l with
  | nil => simp
  | cons a l ih => simp [ih]; ring

lemma totalMass_shift (delta : Vector3) (particles : List Sphere) :
    totalMass (shiftParticles delta particles) = totalMass particles := by
  unfold totalMass shiftParticles
  rw [List.map_map]
  rfl

lemma sum_shift_coord (delta : Vector3) (particles : List Sphere)
    (f : Vector3 → ℝ) (hf : ∀ a b : Vector3, f (a.add b) = f a + f b) :
    ((shiftParticles delta particles).map fun p => f p.center * massOf p.radius).sum =
      (particles.map fun p => f p.center * massOf p.radius).sum +
        f delta * totalMass particles := by
  unfold shiftParticles totalMass
  rw [List.map_map]
  have heq : ((fun p : Sphere => f p.center * massOf p.radius) ∘
      fun p : Sphere => { center := p.center.add delta, radius := p.radius }) =
      fun p : Sphere => f p.center * massOf p.radius + f delta * massOf p.radius := by
    funext p
    simp only [Function.comp_apply, hf]
    ring
  rw [heq, List.sum_map_add, List.sum_map_mul_left]

lemma sum_shift_coord_plain (delta : Vector3) (particles : List Sphere)
    (f : Vector3 → ℝ) (hf : ∀ a b : Vector3, f (a.add b) = f a + f b) :
    ((shiftParticles delta particles).map fun p => f p.center).sum =
      (particles.map fun p => f p.center).sum + (particles.length : ℝ) * f delta := by
  unfold shiftParticles
  rw [List.map_map]
  have heq : ((fun p : Sphere => f p.center) ∘
      fun p : Sphere => { center := p.center.add delta, radius := p.radius }) =
      fun p : Sphere => f p.center + f delta := by
    funext p
    simp only [Function.comp_apply, hf]
  rw [heq, List.sum_map_add, sum_map_const_real]

lemma comOf_shift (delta : Vector3) (particles : List Sphere)
    (hM : totalMass particles ≠ 0) :
    comOf (shiftParticles delta particles) = (comOf particles).add delta := by
  simp only [comOf, totalMass_shift]
  rw [sum_shift_coord delta particles (fun v => v.x) (fun a b => rfl),
    sum_shift_coord delta particles (fun v => v.y) (fun a b => rfl),
    sum_shift_coord delta particles (fun v => v.z) (fun a b => rfl)]
  simp only [Vector3.add, Vector3.smul, Vector3.mk.injEq]
  refine ⟨?_, ?_, ?_⟩ <;> field_simp <;> ring

lemma gcOf_shift (delta : Vector3) (particles : List Sphere)
    (hne : particles ≠ []) :
    gcOf (shiftParticles delta particles) = (gcOf particles).add delta := by
  have hlen : (shiftParticles delta particles).length = particles.length := by
    simp [shiftParticles]
  have hlen0 : (particles.length : ℝ) ≠ 0 := by
    simpa using (List.length_pos.2 hne).ne'
  simp only [gcOf, hlen]
  rw [sum_shift_coord_plain delta particles (fun v => v.x) (fun a b => rfl),
    sum_shift_coord_plain delta particles (fun v => v.y) (fun a b => rfl),
    sum_shift_coord_plain delta particles (fun v => v.z) (fun a b => rfl)]
  simp only [Vector3.add, Vector3.smul, Vector3.mk.injEq]
  refine ⟨?_, ?_, ?_⟩ <;> field_simp <;> ring

lemma boundingFrom_shift (c delta : Vector3) (particles : List Sphere) :
    boundingFrom (c.add delta) (shiftParticles delta particles) =
      boundingFrom c particles := by
  unfold boundingFrom shiftParticles
  rw [List.map_map]
  congr 1
  apply List.map_congr_left
  intro p _
  simp only [Function.comp_apply]
  rw [dist_translate]

lemma mass_sum_shift (coords : List Vector3) (radii : List ℝ) (delta : Vector3) :
    (((coords.map fun v => v.add delta).zip radii).map fun p => massOf p.2).sum =
      ((coords.zip radii).map fun p => massOf p.2).sum := by
  rw [List.zip_map_left, List.map_map]
  rfl

lemma cg_sum_shift (coords : List Vector3) (radii : List ℝ) (delta : Vector3)
    (f : Vector3 → ℝ) (hf : ∀ a b : Vector3, f (a.add b) = f a + f b) :
    (((coords.map fun v => v.add delta).zip radii).map fun p => f p.1 * massOf p.2).sum =
      ((coords.zip radii).map fun p => f p.1 * massOf p.2).sum +
        f delta * ((coords.zip radii).map fun p => massOf p.2).sum := by
  rw [List.zip_map_left, List.map_map]
  have heq : ((fun p : Vector3 × ℝ => f p.1 * massOf p.2) ∘
      Prod.map (fun v => v.add delta) id) =
      fun p : Vector3 × ℝ => f p.1 * massOf p.2 + f delta * massOf p.2 := by
    funext p
    simp only [Function.comp_apply, Prod.map, id, hf]
    ring
  rw [heq, List.sum_map_add, List.sum_map_mul_left]

lemma cg_shift (coords : List Vector3) (radii : List ℝ) (delta : Vector3)
    (hM : 0 < ((coords.zip radii).map fun p => massOf p.2).sum) :
    calculate_center_of_gravity (coords.map fun v => v.add delta) radii =
      (calculate_center_of_gravity coords radii).add delta := by
  simp only [calculate_center_of_gravity, mass_sum_shift]
  rw [cg_sum_shift coords radii delta (fun v => v.x) (fun a b => rfl),
      cg_sum_shift coords radii delta (fun v => v.y) (fun a b => rfl),
      cg_sum_shift coords radii delta (fun v => v.z) (fun a b => rfl),
      if_pos hM, if_pos hM]
  have hM' : ((coords.zip radii).map fun p => massOf p.2).sum ≠ 0 := ne_of_gt hM
  simp only [Vector3.add, Vector3.smul, Vector3.mk.injEq]
  refine ⟨?_, ?_, ?_⟩ <;> field_simp <;> ring

lemma ip_sum_shift (coords : List Vector3) (radii : List ℝ) (delta cg : Vector3) :
    (((coords.map fun v => v.add delta).zip radii).map fun p =>
        (3 / 5) * (massOf p.2 * p.2 * p.2) +
          massOf p.2 * (p.1.distance_to (cg.add delta)) *
            (p.1.distance_to (cg.add delta))).sum =
      ((coords.zip radii).map fun p =>
        (3 / 5) * (massOf p.2 * p.2 * p.2) +
          massOf p.2 * (p.1.distance_to cg) * (p.1.distance_to cg)).sum := by
  rw [List.zip_map_left, List.map_map]
  congr 1
  apply List.map_congr_left
  intro p _
  simp only [Function.comp_apply, Prod.map, id]
  rw [dist_translate]

lemma rg_shift (coords : List Vector3) (radii : List ℝ) (delta : Vector3) :
    calculate_radius_of_gyration (coords.map fun v => v.add delta) radii =
      calculate_radius_of_gyration coords radii := by
  rcases coords with _ | ⟨c0, cs⟩
  · rfl
  · have hmap : (c0.add delta :: List.map (fun v => v.add delta) cs) =
        ((c0 :: cs).map fun v => v.add delta) := rfl
    by_cases hM : 0 < (((c0 :: cs).zip radii).map fun p => massOf p.2).sum
    · simp only [calculate_radius_of_gyration, List.map_cons, List.isEmpty_cons,
        Bool.false_eq_true, if_false]
      rw [hmap, cg_shift _ _ _ hM, mass_sum_shift, ip_sum_shift]
    · simp only [calculate_radius_of_gyration, List.map_cons, List.isEmpty_cons,
        Bool.false_eq_true, if_false]
      rw [hmap, mass_sum_shift, if_neg hM, if_neg hM]

lemma rgOf_shift (delta : Vector3) (particles : List Sphere) :
    rgOf (shiftParticles delta particles) = rgOf particles := by
  unfold rgOf shiftParticles
  rw [List.map_map, List.map_map]
  have h1 : (Sphere.center ∘
      fun p : Sphere => { center := p.center.add delta, radius := p.radius }) =
      ((fun v : Vector3 => v.add delta) ∘ Sphere.center) := rfl
  have h2 : (Sphere.radius ∘
      fun p : Sphere => { center := p.center.add delta, radius := p.radius }) =
      Sphere.radius := rfl
  rw [h1, h2, ← List.map_map]
  exact rg_shift _ _ delta

lemma ccaCluster_update_consistent (c : CcaCluster) (h : c.particles ≠ []) :
    c.update_properties.Consistent := by
  unfold CcaCluster.update_properties
  rw [if_neg (by simpa using h)]
  exact ⟨rfl, rfl⟩

lemma bccCluster_update_consistent (c : BccCluster) (h : c.particles ≠ []) :
    c.update_properties.Consistent := by
  unfold BccCluster.update_properties
  rw [if_neg (by simpa using h)]
  exact ⟨rfl, rfl, rfl, rfl⟩

lemma tccCluster_update_consistent (c : TccCluster) (h : c.particles ≠ []) :
    c.update_properties.Consistent := by
  unfold TccCluster.update_properties
  rw [if_neg (by simpa using h)]
  exact ⟨rfl, rfl, rfl, rfl⟩

lemma ccaCluster_translate_consistent (c : CcaCluster) (delta : Vector3)
    (hcons : c.Consistent) (hM : totalMass c.particles ≠ 0) :
    (c.translate delta).Consistent := by
  obtain ⟨h1, h2⟩ := hcons
  unfold CcaCluster.translate CcaCluster.Consistent
  dsimp only
  rw [comOf_shift delta c.particles hM, rgOf_shift delta c.particles, h1, h2]
  exact ⟨rfl, rfl⟩

lemma bccCluster_translate_consistent (c : BccCluster) (delta : Vector3)
    (hcons : c.Consistent) (hne : c.particles ≠ []) (hM : totalMass c.particles ≠ 0) :
    (c.translate delta).Consistent := by
  obtain ⟨h1, h2, h3, h4⟩ := hcons
  unfold BccCluster.translate BccCluster.Consistent
  dsimp only
  rw [comOf_shift delta c.particles hM, gcOf_shift delta c.particles hne,
    boundingFrom_shift, rgOf_shift delta c.particles, h1, h2, h3, h4]
  exact ⟨rfl, rfl, rfl, rfl⟩

lemma tccCluster_translate_consistent (c : TccCluster) (delta : Vector3)
    (hcons : c.Consistent) (hne : c.particles ≠ []) (hM : totalMass c.particles ≠ 0) :
    (c.translate delta).Consistent := by
  obtain ⟨h1, h2, h3, h4⟩ := hcons
  unfold TccCluster.translate TccCluster.Consistent
  dsimp only
  rw [comOf_shift delta c.particles hM, gcOf_shift delta c.particles hne,
    boundingFrom_shift, rgOf_shift delta c.particles, h1, h2, h3, h4]
  exact ⟨rfl, rfl, rfl, rfl⟩

/-! ## Claim theorems, part 5 -/

/-- Claim C7 (confirmed): for the cluster entities of CCA, Ballistic CC and
Tunable CC, every mutating operation leaves the cached fields equal to the
values recomputed from the current particle list (for the fields each
cluster actually caches): translate preserves consistency by shifting the
cached centers (under nonzero total mass, as the source divides by total
mass unguarded); rotate_around_axis and merge_with recompute all cached
fields via update_properties. -/
theorem C7_cluster_cache_consistency :
    (∀ (c : CcaCluster) (delta : Vector3), c.Consistent →
      totalMass c.particles ≠ 0 → (c.translate delta).Consistent) ∧
    (∀ c other : CcaCluster, c.particles ++ other.particles ≠ [] →
      (c.merge_with other).Consistent) ∧
    (∀ (c : BccCluster) (delta : Vector3), c.Consistent → c.particles ≠ [] →
      totalMass c.particles ≠ 0 → (c.translate delta).Consistent) ∧
    (∀ c other : BccCluster, c.particles ++ other.particles ≠ [] →
      (c.merge_with other).Consistent) ∧
    (∀ (c : TccCluster) (delta : Vector3), c.Consistent → c.particles ≠ [] →
      totalMass c.particles ≠ 0 → (c.translate delta).Consistent) ∧
    (∀ (c : TccCluster) (axis : Vector3) (angle : ℝ) (pivot : Vector3),
      c.particles ≠ [] → (c.rotate_around_axis axis angle pivot).Consistent) ∧
    (∀ c other : TccCluster, c.particles ++ other.particles ≠ [] →
      (c.merge_with other).Consistent) := by
  refine ⟨fun c delta h1 h2 => ccaCluster_translate_consistent c delta h1 h2,
    fun c other h => ccaCluster_update_consistent _ h,
    fun c delta h1 h2 h3 => bccCluster_translate_consistent c delta h1 h2 h3,
    fun c other h => bccCluster_update_consistent _ h,
    fun c delta h1 h2 h3 => tccCluster_translate_consistent c delta h1 h2 h3,
    fun c axis angle pivot h => tccCluster_update_consistent _ ?_,
    fun c other h => tccCluster_update_consistent _ h⟩
  simpa using h

/-- Witness for C7 at concrete single-particle clusters. -/
theorem C7_cluster_cache_consistency_witness :
    (c7CcaBase.update_properties.Consistent ∧
      totalMass c7CcaBase.update_properties.particles ≠ 0 ∧
      (c7CcaBase.update_properties.translate ⟨1, 2, 3⟩).Consistent) ∧
    (c7CcaBase.particles ++ c7CcaBase.particles ≠ [] ∧
      (c7CcaBase.merge_with c7CcaBase).Consistent) ∧
    (c7BccBase.update_properties.Consistent ∧
      c7BccBase.update_properties.particles ≠ [] ∧
      totalMass c7BccBase.update_properties.particles ≠ 0 ∧
      (c7BccBase.update_properties.translate ⟨1, 2, 3⟩).Consistent) ∧
    (c7BccBase.particles ++ c7BccBase.particles ≠ [] ∧
      (c7BccBase.merge_with c7BccBase).Consistent) ∧
    (c7TccBase.update_properties.Consistent ∧
      (c7TccBase.update_properties.translate ⟨1, 2, 3⟩).Consistent) ∧
    (c7TccBase.particles ≠ [] ∧
      (c7TccBase.rotate_around_axis ⟨0, 0, 1⟩ 1 Vector3.zero).Consistent) ∧
    ((c7TccBase.merge_with c7TccBase).Consistent) := by
  have hp : c7CcaBase.update_properties.particles = [⟨⟨0, 0, 0⟩, 1⟩] := rfl
  have hpb : c7BccBase.update_properties.particles = [⟨⟨0, 0, 0⟩, 1⟩] := rfl
  have hpt : c7TccBase.update_properties.particles = [⟨⟨0, 0, 0⟩, 1⟩] := rfl
  have hM : totalMass [(⟨⟨0, 0, 0⟩, 1⟩ : Sphere)] ≠ 0 := by
    norm_num [totalMass, massOf]
  have hCcons : c7CcaBase.update_properties.Consistent :=
    ccaCluster_update_consistent c7CcaBase (by simp [c7CcaBase])
  have hBcons : c7BccBase.update_properties.Consistent :=
    bccCluster_update_consistent c7BccBase (by simp [c7BccBase])
  have hTcons : c7TccBase.update_properties.Consistent :=
    tccCluster_update_consistent c7TccBase (by simp [c7TccBase])
  refine ⟨⟨hCcons, hp ▸ hM, ?_⟩, ⟨by simp [c7CcaBase], ?_⟩,
    ⟨hBcons, hpb ▸ (by simp : ([(⟨⟨0, 0, 0⟩, 1⟩ : Sphere)]) ≠ []), hpb ▸ hM, ?_⟩,
    ⟨by simp [c7BccBase], ?_⟩, ⟨hTcons, ?_⟩, ⟨by simp [c7TccBase], ?_⟩, ?_⟩
  · exact C7_cluster_cache_consistency.1 _ _ hCcons (hp ▸ hM)
  · exact C7_cluster_cache_consistency.2.1 _ _ (by simp [c7CcaBase])
  · exact C7_cluster_cache_consistency.2.2.1 _ _ hBcons (by rw [hpb]; simp) (hpb ▸ hM)
  · exact C7_cluster_cache_consistency.2.2.2.1 _ _ (by simp [c7BccBase])
  · exact C7_cluster_cache_consistency.2.2.2.2.1 _ _ hTcons (by rw [hpt]; simp) (hpt ▸ hM)
  · exact C7_cluster_cache_consistency.2.2.2.2.2.1 _ _ _ _ (by simp [c7TccBase])
  · exact C7_cluster_cache_consistency.2.2.2.2.2.2 _ _ (by simp [c7TccBase])

lemma dlaTryStick_no_stick (p : DlaParams) (particles : List Sphere) (pos : Vector3)
    (hsp : p.sticking_probability ≤ 0) :
    ∀ (l : List ℕ) (r : Rng), (∀ n, 0 ≤ r.src.unif n) →
      (dlaTryStick p particles pos l r).1 = none ∧
      (dlaTryStick p particles pos l r).2.src = r.src := by
  intro l
  induction l with
  | nil => intro r hr; exact ⟨rfl, rfl⟩
  | cons idx rest ih =>
    intro r hr
    unfold dlaTryStick
    dsimp only
    have h2 : ¬ (1 : ℝ) ≤ p.sticking_probability := by linarith
    have h3 : ¬ ((r.genU).1 < p.sticking_probability) := by
      have := hr r.k
      simp only [Rng.genU]
      linarith
    by_cases h1 : pos.distance_to (particles.getD idx ⟨Vector3.zero, 0⟩).center <
        p.seed_radius + (particles.getD idx ⟨Vector3.zero, 0⟩).radius
    · rw [if_pos h1, if_neg h2, if_neg h3]
      exact ih (r.genU).2 hr
    · rw [if_neg h1]
      exact ih r hr

lemma dlaWalk_no_stick (p : DlaParams) (particles : List Sphere) (hash : SpatialHash)
    (kill_distance : ℝ) (hsp : p.sticking_probability ≤ 0) :
    ∀ (fuel : ℕ) (pos : Vector3) (r : Rng), (∀ n, 0 ≤ r.src.unif n) →
      (dlaWalk p particles hash kill_distance fuel pos r).2.2 = false ∧
      (dlaWalk p particles hash kill_distance fuel pos r).2.1.src = r.src := by
  intro fuel
  induction fuel with
  | zero => intro pos r hr; exact ⟨rfl, rfl⟩
  | succ fuel ih =>
    intro pos r hr
    unfold dlaWalk
    dsimp only
    by_cases hk : kill_distance < pos.length
    · rw [if_pos hk]
      exact ⟨rfl, rfl⟩
    · rw [if_neg hk]
      set d := (random_direction r).1 with hd
      set r1 := (random_direction r).2 with hr1eq
      set pos1 := pos.add ⟨d.1 * (p.seed_radius * 0.5), d.2.1 * (p.seed_radius * 0.5),
        d.2.2 * (p.seed_radius * 0.5)⟩ with hpos1
      have hr1 : ∀ n, 0 ≤ r1.src.unif n := by rw [hr1eq]; exact hr
      obtain ⟨hnone, hsrc⟩ := dlaTryStick_no_stick p particles pos1 hsp
        (hash.query_potential_collisions ⟨pos1, p.seed_radius⟩) r1 hr1
      have hsrc2 : r1.src = r.src := by rw [hr1eq]; rfl
      split
      · next pos2 r2 heq =>
        rw [heq] at hnone
        exact absurd hnone (by simp)
      · next r2 heq =>
        rw [heq] at hsrc
        have hh := ih pos1 r2 fun n => by
          rw [show r2.src = r.src from hsrc.trans hsrc2]; exact hr n
        exact ⟨hh.1, hh.2.trans (hsrc.trans hsrc2)⟩

lemma dlaOuterStep_no_stick (p : DlaParams) (s : DlaState)
    (hsp : p.sticking_probability ≤ 0) (hr : ∀ n, 0 ≤ s.rng.src.unif n) :
    (dlaOuterStep p s).particles = s.particles ∧
      (dlaOuterStep p s).rng.src = s.rng.src := by
  unfold dlaOuterStep
  dsimp only
  set launch_distance := p.launch_distance_factor * s.cluster_rg + p.seed_radius * 2
  set kill_distance := p.kill_distance_factor * launch_distance
  set d := (random_direction s.rng).1 with hd
  set r1 := (random_direction s.rng).2 with hr1eq
  set pos0 : Vector3 := ⟨d.1 * launch_distance, d.2.1 * launch_distance,
    d.2.2 * launch_distance⟩ with hpos0
  have hsrc1 : r1.src = s.rng.src := by rw [hr1eq]; rfl
  have hr1 : ∀ n, 0 ≤ r1.src.unif n := by rw [hr1eq]; exact hr
  obtain ⟨hfalse, hsrc⟩ := dlaWalk_no_stick p s.particles s.hash kill_distance hsp
    p.max_walk_steps pos0 r1 hr1
  split
  · next pos r2 heq =>
    rw [heq] at hfalse
    exact absurd hfalse (by simp)
  · next pos r2 heq =>
    rw [heq] at hsrc
    exact ⟨rfl, hsrc.trans hsrc1⟩

lemma dlaIterate_no_stick (p : DlaParams) (hsp : p.sticking_probability ≤ 0) :
    ∀ (k : ℕ) (s : DlaState), (∀ n, 0 ≤ s.rng.src.unif n) →
      ((dlaOuterStep p)^[k] s).particles = s.particles := by
  intro k
  induction k with
  | zero => intro s hr; rfl
  | succ k ih =>
    intro s hr
    rw [Function.iterate_succ_apply]
    obtain ⟨hp, hsrc⟩ := dlaOuterStep_no_stick p s hsp hr
    rw [ih (dlaOuterStep p s) (by rw [hsrc]; exact hr), hp]

lemma bccStep_iterations (p : BallisticCcParams) (s : BccState) :
    (bccStep p s).iterations = s.iterations + 1 := rfl

lemma bccLoopGo_exits (p : BallisticCcParams) :
    ∀ (fuel : ℕ) (s : BccState), p.n_particles * 1000 ≤ s.iterations + fuel →
      s.iterations ≤ p.n_particles * 1000 →
      (bccLoopGo p fuel s).iterations ≤ p.n_particles * 1000 ∧
        ¬ bccGuard p (bccLoopGo p fuel s) := by
  intro fuel
  induction fuel with
  | zero =>
    intro s h1 h2
    unfold bccLoopGo
    refine ⟨h2, fun hg => ?_⟩
    have := hg.2
    omega
  | succ fuel ih =>
    intro s h1 h2
    unfold bccLoopGo
    by_cases hg : bccGuard p s
    · rw [if_pos hg]
      exact ih (bccStep p s) (by rw [bccStep_iterations]; omega)
        (by rw [bccStep_iterations]; exact hg.2)
    · rw [if_neg hg]
      exact ⟨h2, hg⟩

lemma tccStep_iterations (p : TunableCcParams) (s : TccState) :
    (tccStep p s).iterations = s.iterations + 1 := rfl

lemma tccLoopGo_exits (p : TunableCcParams) :
    ∀ (fuel : ℕ) (s : TccState), p.n_particles * 1000 ≤ s.iterations + fuel →
      s.iterations ≤ p.n_particles * 1000 →
      (tccLoopGo p fuel s).iterations ≤ p.n_particles * 1000 ∧
        ¬ tccGuard p (tccLoopGo p fuel s) := by
  intro fuel
  induction fuel with
  | zero =>
    intro s h1 h2
    unfold tccLoopGo
    refine ⟨h2, fun hg => ?_⟩
    have := hg.2
    omega
  | succ fuel ih =>
    intro s h1 h2
    unfold tccLoopGo
    by_cases hg : tccGuard p s
    · rw [if_pos hg]
      exact ih (tccStep p s) (by rw [tccStep_iterations]; omega)
        (by rw [tccStep_iterations]; exact hg.2)
    · rw [if_neg hg]
      exact ⟨h2, hg⟩

lemma ccaStep_iteration (p : CcaParams) (eff step_size : ℝ) (s : CcaState) :
    (ccaStep p eff step_size s).iteration = s.iteration + 1 := rfl

lemma ccaLoopGo_exits (p : CcaParams) (eff step_size : ℝ) :
    ∀ (fuel : ℕ) (s : CcaState), ccaMaxIters p ≤ s.iteration + fuel →
      s.iteration ≤ ccaMaxIters p →
      (ccaLoopGo p eff step_size fuel s).iteration ≤ ccaMaxIters p ∧
        ¬ ccaGuard p (ccaLoopGo p eff step_size fuel s) := by
  intro fuel
  induction fuel with
  | zero =>
    intro s h1 h2
    unfold ccaLoopGo
    refine ⟨h2, fun hg => ?_⟩
    have := hg.2
    omega
  | succ fuel ih =>
    intro s h1 h2
    unfold ccaLoopGo
    by_cases hg : ccaGuard p s
    · rw [if_pos hg]
      exact ih (ccaStep p eff step_size s) (by rw [ccaStep_iteration]; omega)
        (by rw [ccaStep_iteration]; exact hg.2)
    · rw [if_neg hg]
      exact ⟨h2, hg⟩

lemma ballistic_random_radius_src (p : BallisticParams) (r : Rng) :
    ((p.random_radius r).2).src = r.src := by
  unfold BallisticParams.random_radius
  split <;> rfl

lemma ballisticTryStick_no_stick (p : BallisticParams) (particles : List Sphere)
    (new_radius : ℝ) (pos : Vector3) (hsp : p.sticking_probability ≤ 0) :
    ∀ (l : List ℕ) (r : Rng), (∀ n, 0 ≤ r.src.unif n) →
      (ballisticTryStick p particles new_radius pos l r).1 = none ∧
      (ballisticTryStick p particles new_radius pos l r).2.src = r.src := by
  intro l
  induction l with
  | nil => intro r hr; exact ⟨rfl, rfl⟩
  | cons idx rest ih =>
    intro r hr
    unfold ballisticTryStick
    dsimp only
    have h2 : ¬ (1 : ℝ) ≤ p.sticking_probability := by linarith
    have h3 : ¬ ((r.genU).1 < p.sticking_probability) := by
      have := hr r.k
      simp only [Rng.genU]
      linarith
    by_cases h1 : pos.distance_to (particles.getD idx ⟨Vector3.zero, 0⟩).center <
        new_radius + (particles.getD idx ⟨Vector3.zero, 0⟩).radius
    · rw [if_pos h1, if_neg h2, if_neg h3]
      exact ih (r.genU).2 hr
    · rw [if_neg h1]
      exact ih r hr

lemma ballisticWalk_no_stick (p : BallisticParams) (particles : List Sphere)
    (hash : SpatialHash) (new_radius : ℝ) (direction : Vector3) (launch_distance : ℝ)
    (hsp : p.sticking_probability ≤ 0) :
    ∀ (fuel : ℕ) (pos : Vector3) (r : Rng), (∀ n, 0 ≤ r.src.unif n) →
      (ballisticWalk p particles hash new_radius direction launch_distance fuel
        pos r).2.2 = false ∧
      (ballisticWalk p particles hash new_radius direction launch_distance fuel
        pos r).2.1.src = r.src := by
  intro fuel
  induction fuel with
  | zero => intro pos r hr; exact ⟨rfl, rfl⟩
  | succ fuel ih =>
    intro pos r hr
    unfold ballisticWalk
    dsimp only
    set pos1 := pos.add (direction.smul (new_radius * 0.5)) with hpos1
    by_cases hk : launch_distance < pos1.length
    · rw [if_pos hk]
      exact ⟨rfl, rfl⟩
    · rw [if_neg hk]
      obtain ⟨hnone, hsrc⟩ := ballisticTryStick_no_stick p particles new_radius pos1 hsp
        (hash.query_potential_collisions ⟨pos1, new_radius⟩) r hr
      split
      · next pos2 r2 heq =>
        rw [heq] at hnone
        exact absurd hnone (by simp)
      · next r2 heq =>
        rw [heq] at hsrc
        have hh := ih pos1 r2 fun n => by rw [hsrc]; exact hr n
        exact ⟨hh.1, hh.2.trans hsrc⟩

lemma ballisticOuterStep_no_stick (p : BallisticParams) (s : BallisticState)
    (hsp : p.sticking_probability ≤ 0) (hr : ∀ n, 0 ≤ s.rng.src.unif n) :
    (ballisticOuterStep p s).particles = s.particles ∧
      (ballisticOuterStep p s).rng.src = s.rng.src := by
  unfold ballisticOuterStep
  dsimp only
  set rr := p.random_radius s.rng with hrr
  set launch_distance := p.launch_distance_factor * s.cluster_rg + p.radius_max * 5
  set d := (random_direction rr.2).1 with hd
  set r1 := (random_direction rr.2).2 with hr1eq
  set start_pos : Vector3 := ⟨d.1 * launch_distance, d.2.1 * launch_distance,
    d.2.2 * launch_distance⟩ with hstart
  set rv := (random_direction r1).1 with hrv
  set r2 := (random_direction r1).2 with hr2eq
  set target : Vector3 := ⟨rv.1 * 0.1, rv.2.1 * 0.1, rv.2.2 * 0.1⟩ with htarget
  set direction := (target.sub start_pos).normalize with hdir
  have hsrcr : rr.2.src = s.rng.src := by
    rw [hrr]
    exact ballistic_random_radius_src p s.rng
  have hsrc1 : r1.src = rr.2.src := by rw [hr1eq]; rfl
  have hsrc2 : r2.src = s.rng.src := by
    rw [hr2eq]
    exact (hsrc1.trans hsrcr : (random_direction r1).2.src = s.rng.src)
  obtain ⟨hfalse, hsrc⟩ := ballisticWalk_no_stick p s.particles s.hash rr.1 direction
    launch_distance hsp p.max_ray_steps start_pos r2 (fun n => by rw [hsrc2]; exact hr n)
  split
  · next pos r3 heq =>
    rw [heq] at hfalse
    exact absurd hfalse (by simp)
  · next pos r3 heq =>
    rw [heq] at hsrc
    exact ⟨rfl, hsrc.trans hsrc2⟩

lemma ballisticIterate_no_stick (p : BallisticParams) (hsp : p.sticking_probability ≤ 0) :
    ∀ (k : ℕ) (s : BallisticState), (∀ n, 0 ≤ s.rng.src.unif n) →
      ((ballisticOuterStep p)^[k] s).particles = s.particles := by
  intro k
  induction k with
  | zero => intro s hr; rfl
  | succ k ih =>
    intro s hr
    rw [Function.iterate_succ_apply]
    obtain ⟨hp, hsrc⟩ := ballisticOuterStep_no_stick p s hsp hr
    rw [ih (ballisticOuterStep p s) (by rw [hsrc]; exact hr), hp]

/-! ## Claim theorems, part 6 -/

/-- Claim C1 (confirmed): the random source is threaded explicitly through
every stochastic decision, so each of the six embedded runs — DLA,
Ballistic PC, CCA, Tunable PC, Ballistic CC and Tunable CC — is a pure
function of the parameter record and the seed: two invocations with the
same parameters and seed produce identical results, covering coordinates,
radii, Rg evolution, and all derived scalar metrics (fractal dimension,
prefactor, porosity, coordination mean and std, inertia descriptors).
`ofSeed` is the seed-to-stream map of the external PCG-64 generator, `eig`
the external eigendecomposition, and `fuel` the unrolling depth of the
uncapped or rejection-sampling loops (DLA and Ballistic PC outer loops,
Tunable PC axis sampler); each is fixed across the two invocations, as the
generator state and library code are across two Rust calls. -/
theorem C1_run_determinism (ofSeed : ℕ → RandomSource) (eig : InertiaMatrix → EigResult)
    (fuel : ℕ) (dp : DlaParams) (bp : BallisticParams) (cp : CcaParams)
    (tp : TunableParams) (bcp : BallisticCcParams) (tcp : TunableCcParams) (seed : ℕ) :
    run_dla_internal ofSeed fuel dp seed = run_dla_internal ofSeed fuel dp seed ∧
    run_ballistic_internal ofSeed eig fuel bp seed =
      run_ballistic_internal ofSeed eig fuel bp seed ∧
    run_cca_internal ofSeed cp seed = run_cca_internal ofSeed cp seed ∧
    run_tunable_internal ofSeed eig fuel tp seed =
      run_tunable_internal ofSeed eig fuel tp seed ∧
    run_ballistic_cc_internal ofSeed eig bcp seed =
      run_ballistic_cc_internal ofSeed eig bcp seed ∧
    run_tunable_cc_internal ofSeed eig tcp seed =
      run_tunable_cc_internal ofSeed eig tcp seed :=
  ⟨rfl, rfl, rfl, rfl, rfl, rfl⟩

/-- Claim C2 (corrected): the Ballistic CC and Tunable CC aggregation loops
are bounded by the explicit n_particles * 1000 safety cap and the CCA loop
by its explicit cap (10,000,000 iterations in single-agglomerate mode,
max_iterations otherwise), so each always exits with its iteration count
within the cap and its guard false; the Tunable PC particle-addition loop
is a structurally bounded `for` over 3..=n_particles, a fold over exactly
n_particles - 2 indices.  But the DLA and Ballistic PC particle-addition
loops (`while particles.len() < n_particles`) have no cap: with
sticking_probability <= 0 (and nonnegative unit draws, as the real
generator produces) no walker ever sticks, the particle list is unchanged
by any number of outer iterations, the loop guard never becomes false, and
the run never terminates. -/
theorem C2_termination_amended :
    (∀ (p : BallisticCcParams) (s : BccState), s.iterations = 0 →
      (bccLoop p s).iterations ≤ p.n_particles * 1000 ∧ ¬ bccGuard p (bccLoop p s)) ∧
    (∀ (p : TunableCcParams) (s : TccState), s.iterations = 0 →
      (tccLoop p s).iterations ≤ p.n_particles * 1000 ∧ ¬ tccGuard p (tccLoop p s)) ∧
    (∀ (p : CcaParams) (eff step_size : ℝ) (s : CcaState), s.iteration = 0 →
      (ccaLoop p eff step_size s).iteration ≤ ccaMaxIters p ∧
        ¬ ccaGuard p (ccaLoop p eff step_size s)) ∧
    (∀ (p : TunableParams) (axisFuel : ℕ) (s : TnState),
      (List.range' 3 (p.n_particles - 2)).length = p.n_particles - 2 ∧
      tnLoop p axisFuel s =
        (List.range' 3 (p.n_particles - 2)).foldl (tnBody p axisFuel) s) ∧
    (∀ (p : DlaParams) (s : DlaState), p.sticking_probability ≤ 0 →
      (∀ n, 0 ≤ s.rng.src.unif n) →
      ∀ k, ((dlaOuterStep p)^[k] s).particles = s.particles) ∧
    (∀ (p : BallisticParams) (s : BallisticState), p.sticking_probability ≤ 0 →
      (∀ n, 0 ≤ s.rng.src.unif n) →
      ∀ k, ((ballisticOuterStep p)^[k] s).particles = s.particles) := by
  refine ⟨?_, ?_, ?_, ?_, ?_, ?_⟩
  · intro p s h0
    unfold bccLoop
    exact bccLoopGo_exits p _ s (by omega) (by omega)
  · intro p s h0
    unfold tccLoop
    exact tccLoopGo_exits p _ s (by omega) (by omega)
  · intro p eff step_size s h0
    unfold ccaLoop
    exact ccaLoopGo_exits p eff step_size _ s (by omega) (by omega)
  · intro p axisFuel s
    exact ⟨by simp, rfl⟩
  · intro p s hsp hr k
    exact dlaIterate_no_stick p hsp k s hr
  · intro p s hsp hr k
    exact ballisticIterate_no_stick p hsp k s hr

/-- Claim C2, counterexample to the claim as stated: with n_particles = 2
and sticking_probability = 0 the DLA outer loop never reaches 2 particles,
for any number of iterations — the run does not terminate. -/
theorem C2_counterexample :
    ¬ ∃ k : ℕ, c2Params.n_particles ≤
      ((dlaOuterStep c2Params)^[k]
        (dlaInit c2Params (create_rng (fun _ => constSrc) 42))).particles.length := by
  rintro ⟨k, hk⟩
  rw [dlaIterate_no_stick c2Params (by norm_num [c2Params]) k _
    (fun n => by norm_num [dlaInit, create_rng, constSrc])] at hk
  simp [dlaInit, c2Params] at hk

/-- Witness for the amended C2 at concrete inputs. -/
theorem C2_termination_amended_witness :
    (c2BccState.iterations = 0 ∧
      (bccLoop c2BccParams c2BccState).iterations ≤ c2BccParams.n_particles * 1000 ∧
      ¬ bccGuard c2BccParams (bccLoop c2BccParams c2BccState)) ∧
    (c2TccState.iterations = 0 ∧
      (tccLoop c2TccParams c2TccState).iterations ≤ c2TccParams.n_particles * 1000 ∧
      ¬ tccGuard c2TccParams (tccLoop c2TccParams c2TccState)) ∧
    (c2CcaState.iteration = 0 ∧
      (ccaLoop c2CcaParams 1 1 c2CcaState).iteration ≤ ccaMaxIters c2CcaParams ∧
      ¬ ccaGuard c2CcaParams (ccaLoop c2CcaParams 1 1 c2CcaState)) ∧
    (c2Params.sticking_probability ≤ 0 ∧
      (∀ n, 0 ≤ (dlaInit c2Params (create_rng (fun _ => constSrc) 42)).rng.src.unif n) ∧
      ((dlaOuterStep c2Params)^[3]
          (dlaInit c2Params (create_rng (fun _ => constSrc) 42))).particles =
        (dlaInit c2Params (create_rng (fun _ => constSrc) 42)).particles) ∧
    (c2BallisticParams.sticking_probability ≤ 0 ∧
      (∀ n, 0 ≤ (ballisticInit c2BallisticParams
          (create_rng (fun _ => constSrc) 42)).rng.src.unif n) ∧
      ((ballisticOuterStep c2BallisticParams)^[3]
          (ballisticInit c2BallisticParams (create_rng (fun _ => constSrc) 42))).particles =
        (ballisticInit c2BallisticParams (create_rng (fun _ => constSrc) 42)).particles) :=
  ⟨⟨rfl, (C2_termination_amended.1 c2BccParams c2BccState rfl).1,
    (C2_termination_amended.1 c2BccParams c2BccState rfl).2⟩,
   ⟨rfl, (C2_termination_amended.2.1 c2TccParams c2TccState rfl).1,
    (C2_termination_amended.2.1 c2TccParams c2TccState rfl).2⟩,
   ⟨rfl, (C2_termination_amended.2.2.1 c2CcaParams 1 1 c2CcaState rfl).1,
    (C2_termination_amended.2.2.1 c2CcaParams 1 1 c2CcaState rfl).2⟩,
   ⟨by norm_num [c2Params],
    fun n => by norm_num [dlaInit, create_rng, constSrc],
    C2_termination_amended.2.2.2.2.1 c2Params _ (by norm_num [c2Params])
      (fun n => by norm_num [dlaInit, create_rng, constSrc]) 3⟩,
   ⟨by norm_num [c2BallisticParams],
    fun n => by norm_num [ballisticInit, create_rng, constSrc],
    C2_termination_amended.2.2.2.2.2 c2BallisticParams _ (by norm_num [c2BallisticParams])
      (fun n => by norm_num [ballisticInit, create_rng, constSrc]) 3⟩⟩

end Aglogen
